import Mathlib

/-!
Session registry, nonce state machine and signing boundary of `liblightergo`.

A shallow embedding of `src/liblightergo/liblightergo.go`.

* The process-wide `sessions` slice is threaded explicitly: every exported
  function takes the slice and returns the slice it leaves behind.
* C integers are `Int`; every Go conversion that can change a value is an
  explicit wrap (`toUint32`, `toUint8`, `toInt16`, `toInt64`, `toCInt`).
* The collaborators that live outside the file (HTTP client, key manager,
  Goldilocks field, Poseidon2 hash, the two transaction-type constants) are the
  fields of `Env`.  A call into one of them may return a value, return an
  error, or panic (`Ext`).
* Everything a call does besides returning is recorded: the writes to the
  caller's buffers (`Result.elems`, `Result.sig`) and the ordered list of
  diagnostics and collaborator calls (`Result.trace`).
* A Go run-time panic that no `recover` intercepts ends the call without a
  return value: `Result.ret = none`.
-/

set_option autoImplicit false

namespace LighterGo

/-! ## Machine integers -/

/-- Go conversion to `uint32`: reduction modulo `2^32`. -/
def toUint32 (x : Int) : Nat := (x % 4294967296).toNat

/-- Go conversion to `uint8`: reduction modulo `2^8`. -/
def toUint8 (x : Int) : Nat := (x % 256).toNat

/-- Go conversion to `int16`: two's-complement wrap into `[-2^15, 2^15)`. -/
def toInt16 (x : Int) : Int := (x + 32768) % 65536 - 32768

/-- Go arithmetic on `int64`: two's-complement wrap into `[-2^63, 2^63)`. -/
def toInt64 (x : Int) : Int :=
  (x + 9223372036854775808) % 18446744073709551616 - 9223372036854775808

/-- Go conversion to `C.int`: two's-complement wrap into `[-2^31, 2^31)`. -/
def toCInt (x : Int) : Int := (x + 2147483648) % 4294967296 - 2147483648

/-- Range of a Go `int64` / `C.longlong`. -/
def IsInt64 (x : Int) : Prop := -9223372036854775808 ≤ x ∧ x ≤ 9223372036854775807

instance (x : Int) : Decidable (IsInt64 x) := by
  unfold IsInt64; exact inferInstance

/-! ## `encoding/hex` -/

/-- Value of one hexadecimal digit (`encoding/hex` accepts both cases). -/
def fromHexChar (c : Char) : Option Nat :=
  if 48 ≤ c.toNat ∧ c.toNat ≤ 57 then some (c.toNat - 48)
  else if 97 ≤ c.toNat ∧ c.toNat ≤ 102 then some (c.toNat - 87)
  else if 65 ≤ c.toNat ∧ c.toNat ≤ 70 then some (c.toNat - 55)
  else none

/-- Decoding loop of `hex.DecodeString`: two digits per byte; an odd number of
digits or a character that is no digit is an error. -/
def hexDecode : List Char → Option (List Nat)
  | [] => some []
  | [_] => none
  | p :: q :: rest =>
    match fromHexChar p, fromHexChar q with
    | some a, some b =>
      match hexDecode rest with
      | some bytes => some ((a * 16 + b) :: bytes)
      | none => none
    | _, _ => none

/-- Go `hex.DecodeString`; `none` stands for `err != nil`. -/
def hexDecodeString (s : String) : Option (List Nat) := hexDecode s.toList

/-! ## Data model -/

/-- Go `type Session struct` (lines 20-28).  `KM` is `signer.KeyManager`. -/
structure Session (KM : Type) where
  privateKey : List Nat
  chainId : Nat
  accountIndex : Int
  apiKeyIndex : Nat
  nextNonce : Int
  initNextNonce : Int
  keyManager : KM

/-- The diagnostic constants of lines 30-45 that the code writes. -/
inductive Msg where
  | msgNewLine
  | msgErrorSignatureLength
  | msgErrorSigningTransaction
  | msgErrorNonceMismatch
  | msgErrorWrongSessionIndex
  | msgErrorWrongNonce
  | msgErrorPanic
  | msgErrorDecodingPrivateKey
  | msgErrorGettingNextNonce
  | msgErrorCreatingKeyManager
  | msgGettingNextNonce
  | msgGotNextNonce
  deriving DecidableEq, Repr

/-- Outcome of a call into a collaborator outside the file. -/
inductive Ext (α : Type) where
  | ok (v : α)
  | error
  | panic

/-- What a call does besides returning, in program order. -/
inductive Event (F : Type) where
  | stderr (m : Msg)
  | stdout (line : String)
  | httpGetNextNonce (url : String) (accountIndex : Int) (apiKeyIndex : Nat)
  | newKeyManager (privateKey : List Nat)
  | arrayFromCanonicalLittleEndianBytes (bytes : List Nat)
  | hashToQuinticExtension (elems : List F)
  | sign2 (hash : List Nat)

/-- The collaborators of the file.  `F` is `g.Element`. -/
structure Env (KM F : Type) where
  /-- Call `http.NewClient(url).GetNextNonce(accountIndex, apiKeyIndex)`. -/
  getNextNonce : String → Int → Nat → Ext Int
  /-- Call `signer.NewKeyManager(privateKey)`. -/
  newKeyManager : List Nat → Ext KM
  /-- Call `keyManager.Sign2(hash)`. -/
  sign2 : KM → List Nat → Ext (List Nat)
  /-- Embedding `g.FromUint32`. -/
  fromUint32 : Nat → F
  /-- Embedding `g.FromInt64`. -/
  fromInt64 : Int → F
  /-- Call `g.ArrayFromCanonicalLittleEndianBytes`. -/
  arrayFromCanonicalLittleEndianBytes : List Nat → Ext (List F)
  /-- Digest `p2.HashToQuinticExtension(elems).ToLittleEndianBytes()`. -/
  hashToQuinticExtension : List F → List Nat
  /-- Constant `txtypes.TxTypeL2CreateOrder`. -/
  txTypeL2CreateOrder : Nat
  /-- Constant `txtypes.TxTypeL2CancelOrder`. -/
  txTypeL2CancelOrder : Nat

/-- Everything observable of one call of an exported function. -/
structure Result (KM F : Type) where
  /-- The C return value; `none` when an uncaught panic ended the call. -/
  ret : Option Int
  /-- The `sessions` slice after the call. -/
  sessions : List (Session KM)
  /-- Diagnostics written and collaborators called, in order. -/
  trace : List (Event F)
  /-- Content written through `cElems`; `none` when nothing was written. -/
  elems : Option (List F)
  /-- The 80 bytes written through `cSig`; `none` when nothing was written. -/
  sig : Option (List Nat)

variable {KM F : Type}

/-- Loop of lines 79-84: index of the first session whose key is byte-equal
to `key`, counting from `i`. -/
def findSession (key : List Nat) : List (Session KM) → Nat → Option Nat
  | [], _ => none
  | session :: rest, i =>
    if session.privateKey = key then some i else findSession key rest (i + 1)

/-- Go index expression `sessions[sid]`; `none` is the run-time panic. -/
def index (sessions : List (Session KM)) (sid : Int) : Option (Session KM) :=
  if sid < 0 then none else sessions[sid.toNat]?

/-- The two writes every error branch makes to `os.Stderr`. -/
def errLine (m : Msg) : List (Event F) := [Event.stderr m, Event.stderr Msg.msgNewLine]

/-! ## Session registry -/

/-- Go `LighterGetOrCreateSession` (lines 51-129).  The deferred `recover`
of lines 56-63 turns a panic of a collaborator into the return value `-1`. -/
def LighterGetOrCreateSession (env : Env KM F) (sessions : List (Session KM))
    (cUrl cPrivateKey : String) (cChainId cApiKeyIndex cAccountIndex : Int) : Result KM F :=
  let url := cUrl
  let privateKeyString := cPrivateKey
  let chainId := toUint32 cChainId
  let apiKeyIndex := toUint8 cApiKeyIndex
  let accountIndex := cAccountIndex
  match hexDecodeString privateKeyString with
  | none => ⟨some (-1), sessions, errLine Msg.msgErrorDecodingPrivateKey, none, none⟩
  | some privateKey =>
    match findSession privateKey sessions 0 with
    | some i => ⟨some (toCInt i), sessions, [], none, none⟩
    | none =>
      let t1 : List (Event F) :=
        errLine Msg.msgGettingNextNonce ++ [Event.httpGetNextNonce url accountIndex apiKeyIndex]
      match env.getNextNonce url accountIndex apiKeyIndex with
      | Ext.panic => ⟨some (-1), sessions, t1 ++ errLine Msg.msgErrorPanic, none, none⟩
      | Ext.error => ⟨some (-1), sessions, t1 ++ errLine Msg.msgErrorGettingNextNonce, none, none⟩
      | Ext.ok nextNonce =>
        let t2 : List (Event F) :=
          t1 ++ errLine Msg.msgGotNextNonce ++ [Event.newKeyManager privateKey]
        match env.newKeyManager privateKey with
        | Ext.panic => ⟨some (-1), sessions, t2 ++ errLine Msg.msgErrorPanic, none, none⟩
        | Ext.error =>
          ⟨some (-1), sessions, t2 ++ errLine Msg.msgErrorCreatingKeyManager, none, none⟩
        | Ext.ok keyManager =>
          let sessions1 := sessions ++ [
            { privateKey := privateKey
              chainId := chainId
              accountIndex := accountIndex
              apiKeyIndex := apiKeyIndex
              nextNonce := nextNonce
              initNextNonce := nextNonce
              keyManager := keyManager }]
          ⟨some (toCInt ((sessions1.length : Int) - 1)), sessions1, t2, none, none⟩

/-! ## Nonce state machine -/

/-- Go `LighterGetNextNonce` (lines 131-150). -/
def LighterGetNextNonce (sessions : List (Session KM)) (cSid : Int) : Result KM F :=
  let sid := cSid
  if sid < 0 ∨ sid ≥ sessions.length then
    ⟨some (-1), sessions, errLine Msg.msgErrorWrongSessionIndex, none, none⟩
  else
    match index sessions sid with
    | none => ⟨none, sessions, [], none, none⟩
    | some session =>
      if session.nextNonce < session.initNextNonce then
        ⟨some (-1), sessions, errLine Msg.msgErrorWrongNonce, none, none⟩
      else
        ⟨some session.nextNonce, sessions, [], none, none⟩

/-- Go `LighterAdvanceNextNonce` (lines 152-172).  `session` is a pointer into
the slice, so `session.nextNonce++` updates the slice element in place. -/
def LighterAdvanceNextNonce (sessions : List (Session KM)) (cSid : Int) : Result KM F :=
  let sid := cSid
  if sid < 0 ∨ sid ≥ sessions.length then
    ⟨some (-1), sessions, errLine Msg.msgErrorWrongSessionIndex, none, none⟩
  else
    match index sessions sid with
    | none => ⟨none, sessions, [], none, none⟩
    | some session =>
      if session.nextNonce < session.initNextNonce then
        ⟨some (-1), sessions, errLine Msg.msgErrorWrongNonce, none, none⟩
      else
        let session1 := { session with nextNonce := toInt64 (session.nextNonce + 1) }
        ⟨some session1.nextNonce, sessions.set sid.toNat session1, [], none, none⟩

/-- Go `LighterRewindNextNonce` (lines 174-194).  The decrement of line 186
comes before the floor test of line 187. -/
def LighterRewindNextNonce (sessions : List (Session KM)) (cSid : Int) : Result KM F :=
  let sid := cSid
  if sid < 0 ∨ sid ≥ sessions.length then
    ⟨some (-1), sessions, errLine Msg.msgErrorWrongSessionIndex, none, none⟩
  else
    match index sessions sid with
    | none => ⟨none, sessions, [], none, none⟩
    | some session =>
      let session1 := { session with nextNonce := toInt64 (session.nextNonce - 1) }
      let sessions1 := sessions.set sid.toNat session1
      if session1.nextNonce < session1.initNextNonce then
        ⟨some (-1), sessions1, errLine Msg.msgErrorWrongNonce, none, none⟩
      else
        ⟨some session1.nextNonce, sessions1, [], none, none⟩

/-! ## Signing boundary -/

/-- The tail the three signing functions share (lines 241-259, 301-320,
340-356): hash, `Sign2`, length test, copy of the 80 bytes to `cSig`.
`done` is the trace so far and `out` what has been written through `cElems`. -/
def hashAndSign (env : Env KM F) (sessions : List (Session KM)) (session : Session KM)
    (done : List (Event F)) (out : Option (List F)) (input : List F) : Result KM F :=
  let hash := env.hashToQuinticExtension input
  let t := done ++ [Event.hashToQuinticExtension input, Event.sign2 hash]
  match env.sign2 session.keyManager hash with
  | Ext.panic => ⟨none, sessions, t, out, none⟩
  | Ext.error => ⟨some (-1), sessions, t ++ errLine Msg.msgErrorSigningTransaction, out, none⟩
  | Ext.ok signature =>
    if signature.length ≠ 80 then
      ⟨some (-1), sessions, t ++ errLine Msg.msgErrorSignatureLength, out, none⟩
    else
      ⟨some 0, sessions, t, out, some signature⟩

/-- The sixteen assignments of lines 223-239, over the typed locals of
lines 203-214. -/
def createOrderElems (env : Env KM F) (session : Session KM)
    (marketIndex clientOrderIndex baseAmount : Int) (price isAsk orderType timeInForce
      reduceOnly triggerPrice : Nat) (orderExpiry nonce expiredAt : Int) : List F :=
  [ env.fromUint32 session.chainId,
    env.fromUint32 env.txTypeL2CreateOrder,
    env.fromInt64 nonce,
    env.fromInt64 expiredAt,
    env.fromInt64 session.accountIndex,
    env.fromUint32 session.apiKeyIndex,
    env.fromUint32 (toUint32 marketIndex),
    env.fromInt64 clientOrderIndex,
    env.fromInt64 baseAmount,
    env.fromUint32 price,
    env.fromUint32 isAsk,
    env.fromUint32 orderType,
    env.fromUint32 timeInForce,
    env.fromUint32 reduceOnly,
    env.fromUint32 triggerPrice,
    env.fromInt64 orderExpiry ]

/-- Go `LighterSignCreateOrder` (lines 196-260).  There is no `recover`: the
index expression of line 216 panics on a handle outside the slice. -/
def LighterSignCreateOrder (env : Env KM F) (sessions : List (Session KM))
    (cSid cMarketIndex cClientOrderIndex cBaseAmount cPrice cIsAsk cOrderType cTimeInForce
      cReduceOnly cTriggerPrice cOrderExpiry cNonce cExpiredAt : Int) : Result KM F :=
  let sid := cSid
  let marketIndex := toInt16 cMarketIndex
  let clientOrderIndex := cClientOrderIndex
  let baseAmount := cBaseAmount
  let price := toUint32 cPrice
  let isAsk := toUint8 cIsAsk
  let orderType := toUint8 cOrderType
  let timeInForce := toUint8 cTimeInForce
  let reduceOnly := toUint8 cReduceOnly
  let triggerPrice := toUint32 cTriggerPrice
  let orderExpiry := cOrderExpiry
  let nonce := cNonce
  let expiredAt := cExpiredAt
  match index sessions sid with
  | none => ⟨none, sessions, [], none, none⟩
  | some session =>
    if nonce ≠ session.nextNonce then
      ⟨some (-1), sessions, errLine Msg.msgErrorNonceMismatch, none, none⟩
    else
      let elems := createOrderElems env session marketIndex clientOrderIndex baseAmount price
        isAsk orderType timeInForce reduceOnly triggerPrice orderExpiry nonce expiredAt
      hashAndSign env sessions session [] (some elems) elems

/-- The eight assignments of lines 291-299, over the typed locals of
lines 269-272. -/
def cancelOrderElems (env : Env KM F) (session : Session KM)
    (marketIndex orderIndex nonce expiredAt : Int) : List F :=
  [ env.fromUint32 session.chainId,
    env.fromUint32 env.txTypeL2CancelOrder,
    env.fromInt64 nonce,
    env.fromInt64 expiredAt,
    env.fromInt64 session.accountIndex,
    env.fromUint32 session.apiKeyIndex,
    env.fromUint32 (toUint32 marketIndex),
    env.fromInt64 orderIndex ]

/-- Go `LighterSignCancelOrder` (lines 262-321). -/
def LighterSignCancelOrder (env : Env KM F) (sessions : List (Session KM))
    (cSid cMarketIndex cOrderIndex cNonce cExpiredAt : Int) : Result KM F :=
  let sid := cSid
  let marketIndex := toInt16 cMarketIndex
  let orderIndex := cOrderIndex
  let nonce := cNonce
  let expiredAt := cExpiredAt
  match index sessions sid with
  | none => ⟨none, sessions, [], none, none⟩
  | some session =>
    if nonce ≠ session.nextNonce then
      ⟨some (-1), sessions, errLine Msg.msgErrorNonceMismatch, none, none⟩
    else
      let elems := cancelOrderElems env session marketIndex orderIndex nonce expiredAt
      hashAndSign env sessions session [] (some elems) elems

/-- The text of line 332, `fmt.Sprintf("%v:%v:%v", ...)`. -/
def authMessage (deadline accountIndex : Int) (apiKeyIndex : Nat) : String :=
  toString deadline ++ ":" ++ toString accountIndex ++ ":" ++ toString apiKeyIndex

/-- Go `LighterGetAuthToken` (lines 323-357).  `time.Unix(d, 0).Unix()` is `d`
again, so `deadline` stands for `deadline.Unix()`. -/
def LighterGetAuthToken (env : Env KM F) (sessions : List (Session KM))
    (cSid cDeadline : Int) : Result KM F :=
  let sid := cSid
  let deadline := cDeadline
  match index sessions sid with
  | none => ⟨none, sessions, [], none, none⟩
  | some session =>
    let message := authMessage deadline session.accountIndex session.apiKeyIndex
    let bytes := message.toList.map Char.toNat
    let t : List (Event F) := [Event.arrayFromCanonicalLittleEndianBytes bytes]
    match env.arrayFromCanonicalLittleEndianBytes bytes with
    | Ext.panic => ⟨none, sessions, t, none, none⟩
    | Ext.error =>
      ⟨some (-1), sessions, t ++ [Event.stdout "error getting msg in field"], none, none⟩
    | Ext.ok msgInField => hashAndSign env sessions session t none msgInField

/-! ## The boundary as a transition system -/

/-- One call of an exported function with its arguments. -/
inductive Op where
  | getOrCreateSession (cUrl cPrivateKey : String) (cChainId cApiKeyIndex cAccountIndex : Int)
  | getNextNonce (cSid : Int)
  | advanceNextNonce (cSid : Int)
  | rewindNextNonce (cSid : Int)
  | signCreateOrder (cSid cMarketIndex cClientOrderIndex cBaseAmount cPrice cIsAsk cOrderType
      cTimeInForce cReduceOnly cTriggerPrice cOrderExpiry cNonce cExpiredAt : Int)
  | signCancelOrder (cSid cMarketIndex cOrderIndex cNonce cExpiredAt : Int)
  | getAuthToken (cSid cDeadline : Int)

/-- Run one call against the slice `sessions` with the collaborators `env`. -/
def run (env : Env KM F) (sessions : List (Session KM)) : Op → Result KM F
  | Op.getOrCreateSession u k c a i => LighterGetOrCreateSession env sessions u k c a i
  | Op.getNextNonce sid => LighterGetNextNonce sessions sid
  | Op.advanceNextNonce sid => LighterAdvanceNextNonce sessions sid
  | Op.rewindNextNonce sid => LighterRewindNextNonce sessions sid
  | Op.signCreateOrder sid m c b p a o t r tp oe n e =>
    LighterSignCreateOrder env sessions sid m c b p a o t r tp oe n e
  | Op.signCancelOrder sid m o n e => LighterSignCancelOrder env sessions sid m o n e
  | Op.getAuthToken sid d => LighterGetAuthToken env sessions sid d

/-- The slices the process can hold: `sessions` starts out `nil` (line 48) and
changes only through calls that return; each call sees its own outcomes of the
collaborators. -/
inductive Reachable : List (Session KM) → Prop where
  | init : Reachable []
  | step {sessions : List (Session KM)} (F : Type) (env : Env KM F) (op : Op) (v : Int) :
      Reachable sessions → (run env sessions op).ret = some v →
      Reachable (run env sessions op).sessions

/-! ## A concrete environment

Used to evaluate the functions above on concrete inputs. -/

/-- Collaborators that always succeed: the network reports nonce `5`, the
embeddings reduce into the Goldilocks range, the signer returns 80 zero bytes. -/
def demoEnv : Env Unit Int where
  getNextNonce := fun _ _ _ => Ext.ok 5
  newKeyManager := fun _ => Ext.ok ()
  sign2 := fun _ _ => Ext.ok (List.replicate 80 0)
  fromUint32 := fun n => (n : Int)
  fromInt64 := fun x => x % 18446744069414584321
  arrayFromCanonicalLittleEndianBytes := fun bytes => Ext.ok (bytes.map Int.ofNat)
  hashToQuinticExtension := fun _ => List.replicate 40 0
  txTypeL2CreateOrder := 14
  txTypeL2CancelOrder := 15

/-- A session as `LighterGetOrCreateSession` builds it, for key bytes `key`
and fetched nonce `nonce`, with chain 1, account 7 and API key 2. -/
def demoSession (key : List Nat) (nonce : Int) : Session Unit :=
  { privateKey := key
    chainId := 1
    accountIndex := 7
    apiKeyIndex := 2
    nextNonce := nonce
    initNextNonce := nonce
    keyManager := () }

/-- The collaborators of `demoEnv`, except that the conversion of a byte
string to field elements reports an error. -/
def noFieldEnv : Env Unit Int :=
  { demoEnv with arrayFromCanonicalLittleEndianBytes := fun _ => Ext.error }

/-- The collaborators of `demoEnv`, except that the network fetch of the
starting nonce reports an error. -/
def noNetworkEnv : Env Unit Int :=
  { demoEnv with getNextNonce := fun _ _ _ => Ext.error }

/-! ## Auxiliary facts -/

theorem findSession_none_iff (key : List Nat) (l : List (Session KM)) (i : Nat) :
    findSession key l i = none ↔ ∀ s ∈ l, s.privateKey ≠ key := by
  induction l generalizing i with
  | nil => simp [findSession]
  | cons a l ih =>
    simp only [findSession, List.mem_cons, forall_eq_or_imp]
    by_cases h : a.privateKey = key
    · simp [h]
    · simp [h, ih]

theorem findSession_some (key : List Nat) (l : List (Session KM)) (i j : Nat)
    (h : findSession key l i = some j) :
    ∃ m t, j = i + m ∧ l[m]? = some t ∧ t.privateKey = key ∧
      ∀ n u, n < m → l[n]? = some u → u.privateKey ≠ key := by
  induction l generalizing i with
  | nil => simp [findSession] at h
  | cons a l ih =>
    simp only [findSession] at h
    by_cases hk : a.privateKey = key
    · simp only [hk, if_true, Option.some.injEq] at h
      exact ⟨0, a, by omega, by simp, hk, by intro n u hn; omega⟩
    · simp only [hk, if_false] at h
      obtain ⟨m, t, hj, hm, ht, hmin⟩ := ih (i + 1) h
      refine ⟨m + 1, t, by omega, by simpa using hm, ht, ?_⟩
      intro n u hn hu
      cases n with
      | zero => simp at hu; subst hu; exact hk
      | succ n => exact hmin n u (by omega) (by simpa using hu)

theorem findSession_isSome_of_mem (key : List Nat) (l : List (Session KM)) (i : Nat)
    (s : Session KM) (hs : s ∈ l) (hk : s.privateKey = key) :
    ∃ j, findSession key l i = some j := by
  cases h : findSession key l i with
  | none => exact absurd hk ((findSession_none_iff key l i).1 h s hs)
  | some j => exact ⟨j, rfl⟩

theorem index_eq_some {sessions : List (Session KM)} {sid : Int} {s : Session KM}
    (h : index sessions sid = some s) :
    0 ≤ sid ∧ sid.toNat < sessions.length ∧ sessions[sid.toNat]? = some s := by
  unfold index at h
  split at h
  · cases h
  · refine ⟨by omega, ?_, h⟩
    exact (List.getElem?_eq_some_iff.1 h).1

theorem index_inRange {sessions : List (Session KM)} {sid : Int} {s : Session KM}
    (h : index sessions sid = some s) : ¬ (sid < 0 ∨ sid ≥ sessions.length) := by
  obtain ⟨h0, h1, _⟩ := index_eq_some h
  omega

theorem set_nextNonce_keys {sessions : List (Session KM)} {i : Nat} {s : Session KM}
    (h : sessions[i]? = some s) (x : Int) :
    (sessions.set i { s with nextNonce := x }).map Session.privateKey
      = sessions.map Session.privateKey := by
  apply List.ext_getElem?
  intro n
  by_cases hn : i = n
  · subst hn
    simp [List.getElem?_set, h]
    exact (List.getElem?_eq_some_iff.1 h).1
  · simp [List.getElem?_set, hn]
theorem nodup_index_unique {l : List (List Nat)} (h : l.Nodup) {i j : Nat} {a : List Nat}
    (hi : l[i]? = some a) (hj : l[j]? = some a) : i = j := by
  rcases lt_trichotomy i j with hlt | heq | hgt
  · exact absurd (hi.trans hj.symm)
      (List.nodup_iff_getElem?_ne_getElem?.1 h i j hlt (List.getElem?_eq_some_iff.1 hj).1)
  · exact heq
  · exact absurd (hj.trans hi.symm)
      (List.nodup_iff_getElem?_ne_getElem?.1 h j i hgt (List.getElem?_eq_some_iff.1 hi).1)

theorem toCInt_of_lt {n : Nat} (h : n < 2147483648) : toCInt (n : Int) = n := by
  unfold toCInt; omega

theorem findSession_append (key : List Nat) (l : List (Session KM)) (t : Session KM) (i : Nat)
    (h : findSession key l i = none) (ht : t.privateKey = key) :
    findSession key (l ++ [t]) i = some (i + l.length) := by
  induction l generalizing i with
  | nil => simp [findSession, ht]
  | cons a l ih =>
    simp only [findSession] at h
    by_cases hk : a.privateKey = key
    · simp [hk] at h
    · simp only [hk, if_false] at h
      rw [List.cons_append]
      simp only [findSession, hk, if_false]
      rw [ih (i + 1) h, List.length_cons]
      exact congrArg some (by omega)

/-! ## Session registry: deduplication -/

/-- C1: a call of `LighterGetOrCreateSession` whose key decodes to the key of a
session already in the slice returns the index of the session holding that key
(the first one, which is the only one when keys are distinct), writes no
diagnostic, calls neither the HTTP client nor the key-manager constructor, and
leaves the slice as it was, whatever the other arguments are.  Moreover, from
any slice, a registration that returned a handle is answered with the same
handle when the same key is registered again, and that second call changes
nothing. -/
theorem getOrCreateSession_existing_key (env : Env KM F) (sessions : List (Session KM))
    (cUrl cPrivateKey : String) (cChainId cApiKeyIndex cAccountIndex : Int)
    (key : List Nat) (j : Nat) (s : Session KM)
    (hlen : sessions.length ≤ 2147483648)
    (hkey : hexDecodeString cPrivateKey = some key)
    (hj : sessions[j]? = some s) (hs : s.privateKey = key) :
    (∃ i t, i ≤ j ∧ sessions[i]? = some t ∧ t.privateKey = key ∧
      (∀ n u, n < i → sessions[n]? = some u → u.privateKey ≠ key) ∧
      ((sessions.map Session.privateKey).Nodup → i = j) ∧
      (LighterGetOrCreateSession env sessions cUrl cPrivateKey cChainId cApiKeyIndex
        cAccountIndex).ret = some (i : Int)) ∧
    (LighterGetOrCreateSession env sessions cUrl cPrivateKey cChainId cApiKeyIndex
      cAccountIndex).sessions = sessions ∧
    (LighterGetOrCreateSession env sessions cUrl cPrivateKey cChainId cApiKeyIndex
      cAccountIndex).trace = [] ∧
    (∀ (env1 env2 : Env KM F) (sessions0 : List (Session KM)) (url1 url2 : String)
      (chain1 chain2 api1 api2 acct1 acct2 h : Int),
      (LighterGetOrCreateSession env1 sessions0 url1 cPrivateKey chain1 api1 acct1).ret = some h →
      h ≠ -1 →
      (LighterGetOrCreateSession env2
        (LighterGetOrCreateSession env1 sessions0 url1 cPrivateKey chain1 api1 acct1).sessions
        url2 cPrivateKey chain2 api2 acct2).ret = some h ∧
      (LighterGetOrCreateSession env2
        (LighterGetOrCreateSession env1 sessions0 url1 cPrivateKey chain1 api1 acct1).sessions
        url2 cPrivateKey chain2 api2 acct2).sessions
        = (LighterGetOrCreateSession env1 sessions0 url1 cPrivateKey chain1 api1 acct1).sessions ∧
      (LighterGetOrCreateSession env2
        (LighterGetOrCreateSession env1 sessions0 url1 cPrivateKey chain1 api1 acct1).sessions
        url2 cPrivateKey chain2 api2 acct2).trace = []) := by
  have hmem : s ∈ sessions := List.mem_iff_getElem?.2 ⟨j, hj⟩
  obtain ⟨i, hi⟩ := findSession_isSome_of_mem key sessions 0 s hmem hs
  obtain ⟨m, t, him, hm, ht, hmin⟩ := findSession_some key sessions 0 i hi
  have him0 : i = m := by omega
  subst him0
  have hilt : i < sessions.length := (List.getElem?_eq_some_iff.1 hm).1
  have hij : i ≤ j := by
    by_contra hlt
    exact hmin j s (by omega) hj hs
  refine ⟨⟨i, t, hij, hm, ht, hmin, ?_, ?_⟩, ?_, ?_, ?_⟩
  · intro hnd
    have h1 : (sessions.map Session.privateKey)[i]? = some key := by simp [hm, ht]
    have h2 : (sessions.map Session.privateKey)[j]? = some key := by simp [hj, hs]
    exact nodup_index_unique hnd h1 h2
  · simp only [LighterGetOrCreateSession, hkey, hi]
    rw [toCInt_of_lt (by omega)]
  · simp only [LighterGetOrCreateSession, hkey, hi]
  · simp only [LighterGetOrCreateSession, hkey, hi]
  · intro env1 env2 sessions0 url1 url2 chain1 chain2 api1 api2 acct1 acct2 h hret hne
    simp only [LighterGetOrCreateSession, hkey] at hret ⊢
    cases hf : findSession key sessions0 0 with
    | some k =>
      simp only [hf] at hret ⊢
      exact ⟨hret, trivial, trivial⟩
    | none =>
      simp only [hf] at hret ⊢
      cases hn : env1.getNextNonce url1 acct1 (toUint8 api1) with
      | panic => simp only [hn, Option.some.injEq] at hret; exact absurd hret.symm hne
      | error => simp only [hn, Option.some.injEq] at hret; exact absurd hret.symm hne
      | ok v =>
        simp only [hn] at hret ⊢
        cases hk : env1.newKeyManager key with
        | panic => simp only [hk, Option.some.injEq] at hret; exact absurd hret.symm hne
        | error => simp only [hk, Option.some.injEq] at hret; exact absurd hret.symm hne
        | ok km =>
          simp only [hk] at hret ⊢
          rw [findSession_append key sessions0 _ 0 hf rfl]
          simp only [List.length_append, List.length_singleton, Nat.cast_add, Nat.cast_one,
            add_sub_cancel_right, zero_add] at hret ⊢
          exact ⟨hret, trivial, trivial⟩

/-- Instance of C1: with the key `ab` already registered at index 0, a call
with another endpoint, chain and indices returns 0 and changes nothing. -/
theorem getOrCreateSession_existing_key_witness :
    hexDecodeString "ab" = some [171] ∧
    (LighterGetOrCreateSession demoEnv [demoSession [171] 5] "x" "ab" 9 8 6).ret = some 0 ∧
    (LighterGetOrCreateSession demoEnv [demoSession [171] 5] "x" "ab" 9 8 6).sessions
      = [demoSession [171] 5] ∧
    (LighterGetOrCreateSession demoEnv [demoSession [171] 5] "x" "ab" 9 8 6).trace = [] := by
  have h := getOrCreateSession_existing_key demoEnv [demoSession [171] 5] "x" "ab" 9 8 6
    [171] 0 (demoSession [171] 5) (by decide) (by decide) rfl rfl
  obtain ⟨⟨i, t, hi, _, _, _, _, hret⟩, hs, ht, _⟩ := h
  have hi0 : i = 0 := by omega
  subst hi0
  exact ⟨by decide, hret, hs, ht⟩

/-! ## Frame facts -/

theorem hashAndSign_sessions (env : Env KM F) (sessions : List (Session KM)) (session : Session KM)
    (done : List (Event F)) (out : Option (List F)) (input : List F) :
    (hashAndSign env sessions session done out input).sessions = sessions := by
  unfold hashAndSign
  dsimp only
  split
  · rfl
  · rfl
  · split <;> rfl

theorem signCreateOrder_sessions (env : Env KM F) (sessions : List (Session KM))
    (sid m c b p a o t r tp oe n e : Int) :
    (LighterSignCreateOrder env sessions sid m c b p a o t r tp oe n e).sessions = sessions := by
  unfold LighterSignCreateOrder
  dsimp only
  split
  · rfl
  · split
    · rfl
    · exact hashAndSign_sessions _ _ _ _ _ _

theorem signCancelOrder_sessions (env : Env KM F) (sessions : List (Session KM))
    (sid m o n e : Int) :
    (LighterSignCancelOrder env sessions sid m o n e).sessions = sessions := by
  unfold LighterSignCancelOrder
  dsimp only
  split
  · rfl
  · split
    · rfl
    · exact hashAndSign_sessions _ _ _ _ _ _

theorem getAuthToken_sessions (env : Env KM F) (sessions : List (Session KM)) (sid d : Int) :
    (LighterGetAuthToken env sessions sid d).sessions = sessions := by
  unfold LighterGetAuthToken
  dsimp only
  split
  · rfl
  · split
    · rfl
    · rfl
    · exact hashAndSign_sessions _ _ _ _ _ _

theorem getNextNonce_sessions (sessions : List (Session KM)) (sid : Int) :
    (LighterGetNextNonce sessions sid : Result KM F).sessions = sessions := by
  unfold LighterGetNextNonce
  dsimp only
  split
  · rfl
  · split
    · rfl
    · split <;> rfl

theorem advanceNextNonce_keys (sessions : List (Session KM)) (sid : Int) :
    (LighterAdvanceNextNonce sessions sid : Result KM F).sessions.map Session.privateKey
      = sessions.map Session.privateKey := by
  unfold LighterAdvanceNextNonce
  dsimp only
  split
  · rfl
  · split
    · rfl
    · rename_i session hi
      split
      · rfl
      · exact set_nextNonce_keys (index_eq_some hi).2.2 _

theorem rewindNextNonce_keys (sessions : List (Session KM)) (sid : Int) :
    (LighterRewindNextNonce sessions sid : Result KM F).sessions.map Session.privateKey
      = sessions.map Session.privateKey := by
  unfold LighterRewindNextNonce
  dsimp only
  split
  · rfl
  · split
    · rfl
    · rename_i session hi
      split <;> exact set_nextNonce_keys (index_eq_some hi).2.2 _

theorem getOrCreateSession_keys (env : Env KM F) (sessions : List (Session KM))
    (u k : String) (c a i : Int) :
    (LighterGetOrCreateSession env sessions u k c a i).sessions = sessions ∨
    ∃ t : Session KM, (∀ s ∈ sessions, s.privateKey ≠ t.privateKey) ∧
      (LighterGetOrCreateSession env sessions u k c a i).sessions = sessions ++ [t] := by
  unfold LighterGetOrCreateSession
  dsimp only
  split
  · exact Or.inl rfl
  · split
    · exact Or.inl rfl
    · rename_i key _ _ hf
      split
      · exact Or.inl rfl
      · exact Or.inl rfl
      · split
        · exact Or.inl rfl
        · exact Or.inl rfl
        · exact Or.inr ⟨_, (findSession_none_iff key sessions 0).1 hf, rfl⟩

theorem run_keys_nodup (env : Env KM F) (sessions : List (Session KM)) (op : Op)
    (h : (sessions.map Session.privateKey).Nodup) :
    ((run env sessions op).sessions.map Session.privateKey).Nodup := by
  cases op with
  | getOrCreateSession u k c a i =>
    rcases getOrCreateSession_keys env sessions u k c a i with he | ⟨t, hn, he⟩
    · simp only [run, he]; exact h
    · simp only [run, he, List.map_append, List.map_cons, List.map_nil]
      rw [List.nodup_append]
      refine ⟨h, List.nodup_singleton _, ?_⟩
      intro x hx hx1
      simp only [List.mem_singleton] at hx1
      subst hx1
      obtain ⟨s, hs, hsk⟩ := List.mem_map.1 hx
      exact hn s hs hsk
  | getNextNonce sid => simp only [run, getNextNonce_sessions]; exact h
  | advanceNextNonce sid => simp only [run, advanceNextNonce_keys]; exact h
  | rewindNextNonce sid => simp only [run, rewindNextNonce_keys]; exact h
  | signCreateOrder sid m c b p a o t r tp oe n e =>
    simp only [run, signCreateOrder_sessions]; exact h
  | signCancelOrder sid m o n e => simp only [run, signCancelOrder_sessions]; exact h
  | getAuthToken sid d => simp only [run, getAuthToken_sessions]; exact h

theorem reachable_keys_nodup {sessions : List (Session KM)} (h : Reachable sessions) :
    (sessions.map Session.privateKey).Nodup := by
  induction h with
  | init => simp
  | step F env op v _ _ ih => exact run_keys_nodup env _ op ih

/-- C2: in every slice reachable from the empty one by calls of the seven
exported functions, with arbitrary outcomes of the collaborators at each call,
two sessions at different indices never hold byte-equal private keys. -/
theorem reachable_keys_distinct (sessions : List (Session KM)) (h : Reachable sessions)
    (i j : Nat) (si sj : Session KM) (hij : i ≠ j)
    (hi : sessions[i]? = some si) (hj : sessions[j]? = some sj) :
    si.privateKey ≠ sj.privateKey := by
  have hnd := reachable_keys_nodup h
  intro heq
  have h1 : (sessions.map Session.privateKey)[i]? = some si.privateKey := by simp [hi]
  have h2 : (sessions.map Session.privateKey)[j]? = some si.privateKey := by simp [hj, heq]
  exact hij (nodup_index_unique hnd h1 h2)

/-- Instance of C2: after registering the keys `ab` and `cd` the slice holds
two sessions, and their keys differ. -/
theorem reachable_keys_distinct_witness :
    Reachable [demoSession [171] 5, demoSession [205] 5] ∧
    (demoSession [171] 5).privateKey ≠ (demoSession [205] 5).privateKey := by
  have h1 : Reachable [demoSession [171] 5] :=
    Reachable.step Int demoEnv (Op.getOrCreateSession "u" "ab" 1 2 7) 0 Reachable.init rfl
  have h2 : Reachable [demoSession [171] 5, demoSession [205] 5] :=
    Reachable.step Int demoEnv (Op.getOrCreateSession "u" "cd" 1 2 7) 1 h1 rfl
  exact ⟨h2, reachable_keys_distinct _ h2 0 1 _ _ (by decide) rfl rfl⟩

/-! ## Nonce state machine -/

theorem toInt64_succ_pred {n : Int} (h : IsInt64 n) : toInt64 (toInt64 (n + 1) - 1) = n := by
  unfold IsInt64 at h
  unfold toInt64
  omega

theorem toInt64_pred_of_gt {n : Int} (h : IsInt64 n) (hmin : -9223372036854775808 < n) :
    toInt64 (n - 1) = n - 1 := by
  unfold IsInt64 at h
  unfold toInt64
  omega

theorem set_set_self {sessions : List (Session KM)} {i : Nat} {s : Session KM}
    (h : sessions[i]? = some s) (t : Session KM) : (sessions.set i t).set i s = sessions := by
  rw [List.set_set]
  apply List.ext_getElem?
  intro n
  by_cases hn : i = n
  · subst hn
    simp [List.getElem?_set, h, (List.getElem?_eq_some_iff.1 h).1]
  · simp [List.getElem?_set, hn]

theorem index_set_self {sessions : List (Session KM)} {sid : Int} {s : Session KM}
    (h : index sessions sid = some s) (t : Session KM) :
    index (sessions.set sid.toNat t) sid = some t := by
  obtain ⟨h0, h1, _⟩ := index_eq_some h
  unfold index
  simp [not_lt.2 h0, List.getElem?_set, h1]

/-- What `LighterRewindNextNonce` does at the floor, for every slice: on a
session with `nextNonce = initNextNonce` above the least `int64`, it returns
`-1` and stores `initNextNonce - 1`. -/
theorem rewindNextNonce_floor (sessions : List (Session KM)) (sid : Int) (s : Session KM)
    (hi : index sessions sid = some s) (hr : IsInt64 s.nextNonce)
    (hmin : -9223372036854775808 < s.nextNonce) (hf : s.nextNonce = s.initNextNonce) :
    (LighterRewindNextNonce sessions sid : Result KM F).ret = some (-1) ∧
    (LighterRewindNextNonce sessions sid : Result KM F).sessions
      = sessions.set sid.toNat { s with nextNonce := s.initNextNonce - 1 } := by
  have hp := toInt64_pred_of_gt hr hmin
  have hlt : toInt64 (s.nextNonce - 1) < s.initNextNonce := by rw [hp]; omega
  unfold LighterRewindNextNonce
  simp only [index_inRange hi, if_false, hi, hlt, if_true]
  rw [hp, hf]
  exact ⟨trivial, rfl⟩

/-- C3 (evaluation of the code): the slice holding one session with
`nextNonce = 4` and `initNextNonce = 5` is reachable (register the key `ab`
with fetched nonce 5, then call `LighterRewindNextNonce`, which returns `-1`
after having stored the decremented counter), and registering `ab` again from
there returns the handle 0, a success, while that session is below its floor. -/
theorem success_with_nonce_below_floor :
    Reachable [{ demoSession [171] 5 with nextNonce := 4 }] ∧
    (run demoEnv [{ demoSession [171] 5 with nextNonce := 4 }]
      (Op.getOrCreateSession "u" "ab" 1 2 7)).ret = some 0 ∧
    ∃ s ∈ (run demoEnv [{ demoSession [171] 5 with nextNonce := 4 }]
      (Op.getOrCreateSession "u" "ab" 1 2 7)).sessions, s.nextNonce < s.initNextNonce := by
  have h1 : Reachable [demoSession [171] 5] :=
    Reachable.step Int demoEnv (Op.getOrCreateSession "u" "ab" 1 2 7) 0 Reachable.init rfl
  have h2 : Reachable [{ demoSession [171] 5 with nextNonce := 4 }] :=
    Reachable.step Int demoEnv (Op.rewindNextNonce 0) (-1) h1 rfl
  refine ⟨h2, rfl, { demoSession [171] 5 with nextNonce := 4 }, ?_, by decide⟩
  exact List.mem_singleton.2 rfl

/-- C4 (evaluation of the code): on the slice holding one session with
`nextNonce = initNextNonce = 5`, `LighterRewindNextNonce` returns `-1` and
leaves `nextNonce = 4` behind. -/
theorem rewindNextNonce_at_floor_decrements :
    (LighterRewindNextNonce [demoSession [171] 5] 0 : Result Unit Int).ret = some (-1) ∧
    (LighterRewindNextNonce [demoSession [171] 5] 0 : Result Unit Int).sessions
      = [{ demoSession [171] 5 with nextNonce := 4 }] ∧
    (LighterRewindNextNonce [demoSession [171] 5] 0 : Result Unit Int).sessions.map
      Session.nextNonce ≠ [demoSession [171] 5].map Session.nextNonce :=
  ⟨rfl, rfl, by decide⟩

/-- C5: on an in-range handle whose session is at or above its floor,
`LighterAdvanceNextNonce` followed by `LighterRewindNextNonce` both take their
success branch (no diagnostic is written), the advance returns the incremented
counter, the rewind returns the counter the session had before the advance, and
the slice after the two calls is the slice before them.  The value returned by
the advance is the reserved `-1` only when the counter was `-2`, the one
returned by the rewind only when it was `-1`. -/
theorem advance_then_rewind (sessions : List (Session KM)) (sid : Int) (s : Session KM)
    (hi : index sessions sid = some s) (hr : IsInt64 s.nextNonce)
    (hf : s.initNextNonce ≤ s.nextNonce) :
    (LighterAdvanceNextNonce sessions sid : Result KM F).ret
      = some (toInt64 (s.nextNonce + 1)) ∧
    (LighterAdvanceNextNonce sessions sid : Result KM F).trace = [] ∧
    (LighterAdvanceNextNonce sessions sid : Result KM F).sessions
      = sessions.set sid.toNat { s with nextNonce := toInt64 (s.nextNonce + 1) } ∧
    (LighterRewindNextNonce (LighterAdvanceNextNonce sessions sid : Result KM F).sessions sid
      : Result KM F).ret = some s.nextNonce ∧
    (LighterRewindNextNonce (LighterAdvanceNextNonce sessions sid : Result KM F).sessions sid
      : Result KM F).trace = [] ∧
    (LighterRewindNextNonce (LighterAdvanceNextNonce sessions sid : Result KM F).sessions sid
      : Result KM F).sessions = sessions ∧
    (s.nextNonce ≠ -2 →
      (LighterAdvanceNextNonce sessions sid : Result KM F).ret ≠ some (-1)) ∧
    (s.nextNonce ≠ -1 →
      (LighterRewindNextNonce (LighterAdvanceNextNonce sessions sid : Result KM F).sessions sid
        : Result KM F).ret ≠ some (-1)) := by
  have hnr := index_inRange hi
  have hnlt : ¬ s.nextNonce < s.initNextNonce := by omega
  have hadv : (LighterAdvanceNextNonce sessions sid : Result KM F)
      = ⟨some (toInt64 (s.nextNonce + 1)),
          sessions.set sid.toNat { s with nextNonce := toInt64 (s.nextNonce + 1) },
          [], none, none⟩ := by
    unfold LighterAdvanceNextNonce
    simp only [hnr, if_false, hi, hnlt]
  have hnr2 : ¬ (sid < 0 ∨ sid ≥ ((sessions.set sid.toNat
      { s with nextNonce := toInt64 (s.nextNonce + 1) }).length : Int)) := by
    simpa using hnr
  have hrew : (LighterRewindNextNonce (sessions.set sid.toNat
      { s with nextNonce := toInt64 (s.nextNonce + 1) }) sid : Result KM F)
      = ⟨some s.nextNonce, sessions, [], none, none⟩ := by
    unfold LighterRewindNextNonce
    simp only [hnr2, if_false, index_set_self hi, toInt64_succ_pred hr, hnlt]
    have hs : ({ s with nextNonce := s.nextNonce } : Session KM) = s := rfl
    rw [hs, set_set_self (index_eq_some hi).2.2]
  rw [hadv]
  simp only [hrew]
  refine ⟨trivial, trivial, trivial, trivial, trivial, trivial, ?_, ?_⟩
  · intro h2 h
    simp only [Option.some.injEq] at h
    unfold IsInt64 at hr
    unfold toInt64 at h
    omega
  · intro h1 h
    simp only [Option.some.injEq] at h
    exact h1 h

/-- Instance of C5 on the slice holding one session with counter and floor 5:
the advance returns 6, the rewind returns 5 and restores the slice. -/
theorem advance_then_rewind_witness :
    (LighterAdvanceNextNonce [demoSession [171] 5] 0 : Result Unit Int).ret = some 6 ∧
    (LighterRewindNextNonce
      (LighterAdvanceNextNonce [demoSession [171] 5] 0 : Result Unit Int).sessions 0
      : Result Unit Int).ret = some 5 ∧
    (LighterRewindNextNonce
      (LighterAdvanceNextNonce [demoSession [171] 5] 0 : Result Unit Int).sessions 0
      : Result Unit Int).sessions = [demoSession [171] 5] := by
  have h := advance_then_rewind (F := Int) [demoSession [171] 5] 0 (demoSession [171] 5) rfl
    (by decide) (by decide)
  exact ⟨h.1, h.2.2.2.1, h.2.2.2.2.2.1⟩

/-! ## Signing boundary -/

theorem hashAndSign_elems (env : Env KM F) (sessions : List (Session KM)) (session : Session KM)
    (done : List (Event F)) (out : Option (List F)) (input : List F) :
    (hashAndSign env sessions session done out input).elems = out := by
  unfold hashAndSign
  dsimp only
  split
  · rfl
  · rfl
  · split <;> rfl

theorem hashAndSign_ret_iff (env : Env KM F) (sessions : List (Session KM)) (session : Session KM)
    (done : List (Event F)) (out : Option (List F)) (input : List F) :
    (hashAndSign env sessions session done out input).ret = some 0 ↔
      ∃ signature, env.sign2 session.keyManager (env.hashToQuinticExtension input)
        = Ext.ok signature ∧ signature.length = 80 := by
  unfold hashAndSign
  dsimp only
  split
  · rename_i h; simp [h]
  · rename_i h; simp [h]
  · rename_i signature h
    split
    · rename_i hl
      simp only [h, Ext.ok.injEq, exists_eq_left']
      constructor
      · intro h0; simp at h0
      · intro h80; exact absurd h80 hl
    · rename_i hl
      simp only [h, Ext.ok.injEq, exists_eq_left', true_iff]
      exact not_not.1 hl

theorem hashAndSign_ok (env : Env KM F) (sessions : List (Session KM)) (session : Session KM)
    (done : List (Event F)) (out : Option (List F)) (input : List F) (signature : List Nat)
    (h : env.sign2 session.keyManager (env.hashToQuinticExtension input) = Ext.ok signature) :
    (signature.length = 80 →
      (hashAndSign env sessions session done out input).ret = some 0 ∧
      (hashAndSign env sessions session done out input).sig = some signature) ∧
    (signature.length ≠ 80 →
      (hashAndSign env sessions session done out input).ret = some (-1) ∧
      (hashAndSign env sessions session done out input).sig = none) := by
  unfold hashAndSign
  simp only [h]
  constructor
  · intro hl; simp [hl]
  · intro hl; simp [hl]

/-- C6: on an in-range handle, a nonce argument different from the session's
`nextNonce` makes `LighterSignCreateOrder` and `LighterSignCancelOrder` return
`-1` after writing only the nonce-mismatch diagnostic: the hash and `Sign2` are
not called, nothing is written through `cElems` or `cSig`, and the slice is as
before. -/
theorem sign_nonce_mismatch (env : Env KM F) (sessions : List (Session KM)) (sid : Int)
    (s : Session KM) (hi : index sessions sid = some s)
    (m c b p a o t r tp oe n e : Int) (hn : n ≠ s.nextNonce)
    (cm co cn ce : Int) (hcn : cn ≠ s.nextNonce) :
    (LighterSignCreateOrder env sessions sid m c b p a o t r tp oe n e
      = ⟨some (-1), sessions, errLine Msg.msgErrorNonceMismatch, none, none⟩) ∧
    (LighterSignCancelOrder env sessions sid cm co cn ce
      = ⟨some (-1), sessions, errLine Msg.msgErrorNonceMismatch, none, none⟩) ∧
    (∀ x, Event.hashToQuinticExtension x ∉
        (LighterSignCreateOrder env sessions sid m c b p a o t r tp oe n e).trace ∧
      Event.hashToQuinticExtension x ∉
        (LighterSignCancelOrder env sessions sid cm co cn ce).trace) ∧
    (∀ h, Event.sign2 h ∉
        (LighterSignCreateOrder env sessions sid m c b p a o t r tp oe n e).trace ∧
      Event.sign2 h ∉ (LighterSignCancelOrder env sessions sid cm co cn ce).trace) := by
  have h1 : LighterSignCreateOrder env sessions sid m c b p a o t r tp oe n e
      = ⟨some (-1), sessions, errLine Msg.msgErrorNonceMismatch, none, none⟩ := by
    unfold LighterSignCreateOrder
    simp only [hi, ne_eq, hn, not_false_eq_true, if_true]
  have h2 : LighterSignCancelOrder env sessions sid cm co cn ce
      = ⟨some (-1), sessions, errLine Msg.msgErrorNonceMismatch, none, none⟩ := by
    unfold LighterSignCancelOrder
    simp only [hi, ne_eq, hcn, not_false_eq_true, if_true]
  refine ⟨h1, h2, ?_, ?_⟩
  · intro x; rw [h1, h2]; simp [errLine]
  · intro h; rw [h1, h2]; simp [errLine]

/-- Instance of C6: the session expects nonce 5 and both calls present
nonce 6. -/
theorem sign_nonce_mismatch_witness :
    (LighterSignCreateOrder demoEnv [demoSession [171] 5] 0 3 42 1000 500 1 0 0 0 0 0 6 100).ret
      = some (-1) ∧
    (LighterSignCreateOrder demoEnv [demoSession [171] 5] 0 3 42 1000 500 1 0 0 0 0 0 6 100).sig
      = none ∧
    (LighterSignCancelOrder demoEnv [demoSession [171] 5] 0 3 9 6 100).elems = none ∧
    (LighterSignCancelOrder demoEnv [demoSession [171] 5] 0 3 9 6 100).sessions
      = [demoSession [171] 5] := by
  have h := sign_nonce_mismatch demoEnv [demoSession [171] 5] 0 (demoSession [171] 5) rfl
    3 42 1000 500 1 0 0 0 0 0 6 100 (by decide) 3 9 6 100 (by decide)
  rw [h.1, h.2.1]
  exact ⟨rfl, rfl, rfl, rfl⟩

/-! ## Transaction encoder -/

theorem toUint32_toInt16_of_range {m : Int} (h0 : 0 ≤ m) (h1 : m ≤ 32767) :
    toUint32 (toInt16 m) = m.toNat := by
  unfold toUint32 toInt16; omega

theorem toUint32_of_range {p : Int} (h0 : 0 ≤ p) (h1 : p ≤ 4294967295) :
    toUint32 p = p.toNat := by
  unfold toUint32; omega

theorem toUint8_of_range {a : Int} (h0 : 0 ≤ a) (h1 : a ≤ 255) : toUint8 a = a.toNat := by
  unfold toUint8; omega

/-- C7 as stated fails outside the ranges of the typed locals of lines
203-214: with market index 32768 and isAsk 256 the nonce guard passes, yet
element 6 of the written sequence is the embedding of 4294934528 and element
10 the embedding of 0, so the sequence is not the one made of the embeddings
of the arguments, which has the embeddings of 32768 and of 256 there. -/
theorem signCreateOrder_elems_narrowed :
    (LighterSignCreateOrder demoEnv [demoSession [171] 5] 0 32768 42 1000 500 256 0 0 0 0 0 5
      100).elems
      = some [1, 14, 5, 100, 7, 2, 4294934528, 42, 1000, 500, 0, 0, 0, 0, 0, 0] ∧
    (LighterSignCreateOrder demoEnv [demoSession [171] 5] 0 32768 42 1000 500 256 0 0 0 0 0 5
      100).elems
      ≠ some [ demoEnv.fromUint32 1, demoEnv.fromUint32 demoEnv.txTypeL2CreateOrder,
               demoEnv.fromInt64 5, demoEnv.fromInt64 100, demoEnv.fromInt64 7,
               demoEnv.fromUint32 2, demoEnv.fromUint32 32768, demoEnv.fromInt64 42,
               demoEnv.fromInt64 1000, demoEnv.fromUint32 500, demoEnv.fromUint32 256,
               demoEnv.fromUint32 0, demoEnv.fromUint32 0, demoEnv.fromUint32 0,
               demoEnv.fromUint32 0, demoEnv.fromInt64 0 ] := by
  constructor
  · decide
  · decide

/-- C7 (amended): when the nonce guard passes on an in-range handle, the
sequence `LighterSignCreateOrder` writes through `cElems` has exactly these 16
elements, in this order: the embeddings of the session's chain id, the
create-order tag, nonce, expiredAt, the session's account index, the session's
API-key index, marketIndex truncated to `int16` and converted to `uint32`,
clientOrderIndex, baseAmount, price converted to `uint32`, isAsk, orderType,
timeInForce and reduceOnly each truncated to `uint8`, triggerPrice converted to
`uint32`, orderExpiry (the conversions of lines 203-214).  These are the
embeddings of the arguments themselves whenever marketIndex is in 0..32767,
price and triggerPrice are not negative, and the four flags are in 0..255. -/
theorem signCreateOrder_elems (env : Env KM F) (sessions : List (Session KM)) (sid : Int)
    (s : Session KM) (hi : index sessions sid = some s)
    (m c b p a o t r tp oe n e : Int) (hn : n = s.nextNonce) :
    (LighterSignCreateOrder env sessions sid m c b p a o t r tp oe n e).elems
      = some [ env.fromUint32 s.chainId,
               env.fromUint32 env.txTypeL2CreateOrder,
               env.fromInt64 n,
               env.fromInt64 e,
               env.fromInt64 s.accountIndex,
               env.fromUint32 s.apiKeyIndex,
               env.fromUint32 (toUint32 (toInt16 m)),
               env.fromInt64 c,
               env.fromInt64 b,
               env.fromUint32 (toUint32 p),
               env.fromUint32 (toUint8 a),
               env.fromUint32 (toUint8 o),
               env.fromUint32 (toUint8 t),
               env.fromUint32 (toUint8 r),
               env.fromUint32 (toUint32 tp),
               env.fromInt64 oe ] ∧
    (∀ l, (LighterSignCreateOrder env sessions sid m c b p a o t r tp oe n e).elems = some l →
      l.length = 16) ∧
    (0 ≤ m ∧ m ≤ 32767 → 0 ≤ p ∧ p ≤ 2147483647 → 0 ≤ a ∧ a ≤ 255 → 0 ≤ o ∧ o ≤ 255 →
      0 ≤ t ∧ t ≤ 255 → 0 ≤ r ∧ r ≤ 255 → 0 ≤ tp ∧ tp ≤ 2147483647 →
      (LighterSignCreateOrder env sessions sid m c b p a o t r tp oe n e).elems
        = some [ env.fromUint32 s.chainId,
                 env.fromUint32 env.txTypeL2CreateOrder,
                 env.fromInt64 n,
                 env.fromInt64 e,
                 env.fromInt64 s.accountIndex,
                 env.fromUint32 s.apiKeyIndex,
                 env.fromUint32 m.toNat,
                 env.fromInt64 c,
                 env.fromInt64 b,
                 env.fromUint32 p.toNat,
                 env.fromUint32 a.toNat,
                 env.fromUint32 o.toNat,
                 env.fromUint32 t.toNat,
                 env.fromUint32 r.toNat,
                 env.fromUint32 tp.toNat,
                 env.fromInt64 oe ]) := by
  have h : (LighterSignCreateOrder env sessions sid m c b p a o t r tp oe n e).elems
      = some (createOrderElems env s (toInt16 m) c b (toUint32 p) (toUint8 a) (toUint8 o)
          (toUint8 t) (toUint8 r) (toUint32 tp) oe n e) := by
    unfold LighterSignCreateOrder
    simp only [hi, ne_eq, hn, not_true_eq_false, if_false, hashAndSign_elems]
  refine ⟨by rw [h]; rfl, ?_, ?_⟩
  · intro l hl
    rw [h] at hl
    simp only [Option.some.injEq] at hl
    rw [← hl]; rfl
  · intro hm hp ha ho ht hr htp
    rw [h, createOrderElems, toUint32_toInt16_of_range hm.1 hm.2,
      toUint32_of_range hp.1 (by omega), toUint8_of_range ha.1 ha.2,
      toUint8_of_range ho.1 ho.2, toUint8_of_range ht.1 ht.2, toUint8_of_range hr.1 hr.2,
      toUint32_of_range htp.1 (by omega)]

/-- Instance of C7 with the literal inputs of the specification: chain 1,
nonce 5, expiredAt 100, account 7, API key 2, market 3, client order 42,
base amount 1000, price 500, isAsk 1 and zeros; the create-order tag of the
environment is 14. -/
theorem signCreateOrder_elems_witness :
    (LighterSignCreateOrder demoEnv [demoSession [171] 5] 0 3 42 1000 500 1 0 0 0 0 0 5 100).elems
      = some [1, 14, 5, 100, 7, 2, 3, 42, 1000, 500, 1, 0, 0, 0, 0, 0] := by
  have h := (signCreateOrder_elems demoEnv [demoSession [171] 5] 0 (demoSession [171] 5) rfl
    3 42 1000 500 1 0 0 0 0 0 5 100 rfl).1
  rw [h]
  decide

/-- C8 as stated fails outside 0..32767: with market index 32768 the nonce
guard passes, yet element 6 of the written sequence is the embedding of
4294934528, not of 32768; and market index 65539 is encoded as market 3. -/
theorem signCancelOrder_elems_narrowed :
    (LighterSignCancelOrder demoEnv [demoSession [171] 5] 0 32768 9 5 100).elems
      = some [1, 15, 5, 100, 7, 2, 4294934528, 9] ∧
    (LighterSignCancelOrder demoEnv [demoSession [171] 5] 0 32768 9 5 100).elems
      ≠ some [ demoEnv.fromUint32 1, demoEnv.fromUint32 demoEnv.txTypeL2CancelOrder,
               demoEnv.fromInt64 5, demoEnv.fromInt64 100, demoEnv.fromInt64 7,
               demoEnv.fromUint32 2, demoEnv.fromUint32 32768, demoEnv.fromInt64 9 ] ∧
    (LighterSignCancelOrder demoEnv [demoSession [171] 5] 0 65539 9 5 100).elems
      = some [1, 15, 5, 100, 7, 2, 3, 9] := by
  refine ⟨?_, ?_, ?_⟩
  · decide
  · decide
  · decide

/-- C8 (amended): when the nonce guard passes on an in-range handle, the
sequence `LighterSignCancelOrder` writes through `cElems` has exactly these 8
elements, in this order: the embeddings of the session's chain id, the
cancel-order tag, nonce, expiredAt, the session's account index, the session's
API-key index, marketIndex truncated to `int16` and converted to `uint32`
(line 269), and orderIndex.  Element 6 is the embedding of the marketIndex
argument itself whenever that is in 0..32767. -/
theorem signCancelOrder_elems (env : Env KM F) (sessions : List (Session KM)) (sid : Int)
    (s : Session KM) (hi : index sessions sid = some s)
    (m o n e : Int) (hn : n = s.nextNonce) :
    (LighterSignCancelOrder env sessions sid m o n e).elems
      = some [ env.fromUint32 s.chainId,
               env.fromUint32 env.txTypeL2CancelOrder,
               env.fromInt64 n,
               env.fromInt64 e,
               env.fromInt64 s.accountIndex,
               env.fromUint32 s.apiKeyIndex,
               env.fromUint32 (toUint32 (toInt16 m)),
               env.fromInt64 o ] ∧
    (∀ l, (LighterSignCancelOrder env sessions sid m o n e).elems = some l → l.length = 8) ∧
    (0 ≤ m ∧ m ≤ 32767 →
      (LighterSignCancelOrder env sessions sid m o n e).elems
        = some [ env.fromUint32 s.chainId,
                 env.fromUint32 env.txTypeL2CancelOrder,
                 env.fromInt64 n,
                 env.fromInt64 e,
                 env.fromInt64 s.accountIndex,
                 env.fromUint32 s.apiKeyIndex,
                 env.fromUint32 m.toNat,
                 env.fromInt64 o ]) := by
  have h : (LighterSignCancelOrder env sessions sid m o n e).elems
      = some (cancelOrderElems env s (toInt16 m) o n e) := by
    unfold LighterSignCancelOrder
    simp only [hi, ne_eq, hn, not_true_eq_false, if_false, hashAndSign_elems]
  refine ⟨by rw [h]; rfl, ?_, ?_⟩
  · intro l hl
    rw [h] at hl
    simp only [Option.some.injEq] at hl
    rw [← hl]; rfl
  · intro hm
    rw [h, cancelOrderElems, toUint32_toInt16_of_range hm.1 hm.2]

/-- Instance of C8: chain 1, nonce 5, expiredAt 100, account 7, API key 2,
market 3, order index 9; the cancel-order tag of the environment is 15. -/
theorem signCancelOrder_elems_witness :
    (LighterSignCancelOrder demoEnv [demoSession [171] 5] 0 3 9 5 100).elems
      = some [1, 15, 5, 100, 7, 2, 3, 9] := by
  have h := (signCancelOrder_elems demoEnv [demoSession [171] 5] 0 (demoSession [171] 5) rfl
    3 9 5 100 rfl).1
  rw [h]
  decide

/-! ## Signature validation -/

/-- C9 as stated fails for `LighterGetAuthToken`: here `Sign2` returns 80
bytes without error on every digest, yet the call returns `-1` and writes no
signature, because the conversion of the message to field elements (line 334)
reported an error and the call returned at line 337 before signing. -/
theorem getAuthToken_fails_with_good_signer :
    (∀ hash, ∃ signature, noFieldEnv.sign2 (demoSession [171] 5).keyManager hash
      = Ext.ok signature ∧ signature.length = 80) ∧
    index [demoSession [171] 5] 0 = some (demoSession [171] 5) ∧
    (LighterGetAuthToken noFieldEnv [demoSession [171] 5] 0 1700000000).ret = some (-1) ∧
    (LighterGetAuthToken noFieldEnv [demoSession [171] 5] 0 1700000000).sig = none :=
  ⟨fun _ => ⟨List.replicate 80 0, rfl, by decide⟩, rfl, rfl, rfl⟩

/-- C9 (amended): on an in-range handle, `LighterSignCreateOrder` and
`LighterSignCancelOrder` return 0 exactly when the nonce guard passes and
`Sign2` returns, without error, exactly 80 bytes for the digest of the encoded
sequence; `LighterGetAuthToken` returns 0 exactly when the conversion of the
message to field elements returns without error and `Sign2` returns, without
error, exactly 80 bytes for the digest of the converted message.  In each case,
when `Sign2` is reached and returns 80 bytes those bytes are what is written
through `cSig`, and when it returns any other number of bytes the call returns
`-1` and nothing is written through `cSig`. -/
theorem sign_success_iff (env : Env KM F) (sessions : List (Session KM)) (sid : Int)
    (s : Session KM) (hi : index sessions sid = some s) :
    (∀ m c b p a o t r tp oe n e : Int,
      ((LighterSignCreateOrder env sessions sid m c b p a o t r tp oe n e).ret = some 0 ↔
        n = s.nextNonce ∧ ∃ signature,
          env.sign2 s.keyManager (env.hashToQuinticExtension
            (createOrderElems env s (toInt16 m) c b (toUint32 p) (toUint8 a) (toUint8 o)
              (toUint8 t) (toUint8 r) (toUint32 tp) oe n e)) = Ext.ok signature ∧
          signature.length = 80) ∧
      ∀ signature, n = s.nextNonce →
        env.sign2 s.keyManager (env.hashToQuinticExtension
          (createOrderElems env s (toInt16 m) c b (toUint32 p) (toUint8 a) (toUint8 o)
            (toUint8 t) (toUint8 r) (toUint32 tp) oe n e)) = Ext.ok signature →
        (signature.length = 80 →
          (LighterSignCreateOrder env sessions sid m c b p a o t r tp oe n e).ret = some 0 ∧
          (LighterSignCreateOrder env sessions sid m c b p a o t r tp oe n e).sig
            = some signature) ∧
        (signature.length ≠ 80 →
          (LighterSignCreateOrder env sessions sid m c b p a o t r tp oe n e).ret = some (-1) ∧
          (LighterSignCreateOrder env sessions sid m c b p a o t r tp oe n e).sig = none)) ∧
    (∀ m o n e : Int,
      ((LighterSignCancelOrder env sessions sid m o n e).ret = some 0 ↔
        n = s.nextNonce ∧ ∃ signature,
          env.sign2 s.keyManager (env.hashToQuinticExtension
            (cancelOrderElems env s (toInt16 m) o n e)) = Ext.ok signature ∧
          signature.length = 80) ∧
      ∀ signature, n = s.nextNonce →
        env.sign2 s.keyManager (env.hashToQuinticExtension
          (cancelOrderElems env s (toInt16 m) o n e)) = Ext.ok signature →
        (signature.length = 80 →
          (LighterSignCancelOrder env sessions sid m o n e).ret = some 0 ∧
          (LighterSignCancelOrder env sessions sid m o n e).sig = some signature) ∧
        (signature.length ≠ 80 →
          (LighterSignCancelOrder env sessions sid m o n e).ret = some (-1) ∧
          (LighterSignCancelOrder env sessions sid m o n e).sig = none)) ∧
    (∀ d : Int,
      ((LighterGetAuthToken env sessions sid d).ret = some 0 ↔
        ∃ msgInField, env.arrayFromCanonicalLittleEndianBytes
            ((authMessage d s.accountIndex s.apiKeyIndex).toList.map Char.toNat)
            = Ext.ok msgInField ∧
          ∃ signature,
            env.sign2 s.keyManager (env.hashToQuinticExtension msgInField) = Ext.ok signature ∧
            signature.length = 80) ∧
      ∀ msgInField signature,
        env.arrayFromCanonicalLittleEndianBytes
          ((authMessage d s.accountIndex s.apiKeyIndex).toList.map Char.toNat)
          = Ext.ok msgInField →
        env.sign2 s.keyManager (env.hashToQuinticExtension msgInField) = Ext.ok signature →
        (signature.length = 80 →
          (LighterGetAuthToken env sessions sid d).ret = some 0 ∧
          (LighterGetAuthToken env sessions sid d).sig = some signature) ∧
        (signature.length ≠ 80 →
          (LighterGetAuthToken env sessions sid d).ret = some (-1) ∧
          (LighterGetAuthToken env sessions sid d).sig = none)) := by
  refine ⟨?_, ?_, ?_⟩
  · intro m c b p a o t r tp oe n e
    constructor
    · by_cases hn : n = s.nextNonce
      · unfold LighterSignCreateOrder
        simp only [hi, ne_eq, hn, not_true_eq_false, if_false, hashAndSign_ret_iff, true_and]
      · unfold LighterSignCreateOrder
        simp [hi, hn]
    · intro signature hn hs
      unfold LighterSignCreateOrder
      simp only [hi, ne_eq, hn, not_true_eq_false, if_false]
      rw [hn] at hs
      exact hashAndSign_ok env sessions s _ _ _ signature hs
  · intro m o n e
    constructor
    · by_cases hn : n = s.nextNonce
      · unfold LighterSignCancelOrder
        simp only [hi, ne_eq, hn, not_true_eq_false, if_false, hashAndSign_ret_iff, true_and]
      · unfold LighterSignCancelOrder
        simp [hi, hn]
    · intro signature hn hs
      unfold LighterSignCancelOrder
      simp only [hi, ne_eq, hn, not_true_eq_false, if_false]
      rw [hn] at hs
      exact hashAndSign_ok env sessions s _ _ _ signature hs
  · intro d
    constructor
    · unfold LighterGetAuthToken
      simp only [hi]
      cases hc : env.arrayFromCanonicalLittleEndianBytes
          ((authMessage d s.accountIndex s.apiKeyIndex).toList.map Char.toNat) with
      | panic => simp
      | error => simp
      | ok msgInField => simp [hashAndSign_ret_iff]
    · intro msgInField signature hc hs
      unfold LighterGetAuthToken
      simp only [hi, hc]
      exact hashAndSign_ok env sessions s _ _ _ signature hs

/-- Instance of C9 (amended): with collaborators that all succeed and a signer
returning 80 zero bytes, the three calls return 0 and the auth-token call
writes those 80 bytes. -/
theorem sign_success_iff_witness :
    index [demoSession [171] 5] 0 = some (demoSession [171] 5) ∧
    (LighterSignCreateOrder demoEnv [demoSession [171] 5] 0 3 42 1000 500 1 0 0 0 0 0 5 100).ret
      = some 0 ∧
    (LighterSignCancelOrder demoEnv [demoSession [171] 5] 0 3 9 5 100).ret = some 0 ∧
    (LighterGetAuthToken demoEnv [demoSession [171] 5] 0 1700000000).ret = some 0 ∧
    (LighterGetAuthToken demoEnv [demoSession [171] 5] 0 1700000000).sig
      = some (List.replicate 80 0) := by
  have h := sign_success_iff demoEnv [demoSession [171] 5] 0 (demoSession [171] 5) rfl
  refine ⟨rfl, ?_, ?_, ?_, ?_⟩
  · exact ((h.1 3 42 1000 500 1 0 0 0 0 0 5 100).2 (List.replicate 80 0) rfl rfl).1
      (by decide) |>.1
  · exact ((h.2.1 3 9 5 100).2 (List.replicate 80 0) rfl rfl).1 (by decide) |>.1
  · exact ((h.2.2 1700000000).2 _ (List.replicate 80 0) rfl rfl).1 (by decide) |>.1
  · exact ((h.2.2 1700000000).2 _ (List.replicate 80 0) rfl rfl).1 (by decide) |>.2

/-! ## Session registry: failed creation -/

theorem getOrCreateSession_fetches_when_new (env : Env KM F) (sessions : List (Session KM))
    (u k : String) (c a i : Int) (key : List Nat)
    (hk : hexDecodeString k = some key) (hf : findSession key sessions 0 = none) :
    Event.httpGetNextNonce u i (toUint8 a)
      ∈ (LighterGetOrCreateSession env sessions u k c a i).trace := by
  unfold LighterGetOrCreateSession
  simp only [hk, hf]
  cases env.getNextNonce u i (toUint8 a) with
  | panic => simp
  | error => simp
  | ok v =>
    simp only
    cases env.newKeyManager key with
    | panic => simp
    | error => simp
    | ok km => simp

/-- C10: a call of `LighterGetOrCreateSession` that fails because the key
string is not valid hex, or because the key is new and the nonce fetch does not
deliver a nonce, or because the key is new and the key-manager constructor does
not deliver a key manager, returns `-1` and leaves the slice as it was.  So a
later call with the same key string, whatever its other arguments and whatever
the collaborators do then, fails to decode again in the first case, and in the
other two finds no session with the key and calls the nonce fetch again. -/
theorem getOrCreateSession_failure (env : Env KM F) (sessions : List (Session KM))
    (u k : String) (c a i : Int)
    (hfail : hexDecodeString k = none ∨
      ∃ key, hexDecodeString k = some key ∧ findSession key sessions 0 = none ∧
        ((∀ v, env.getNextNonce u i (toUint8 a) ≠ Ext.ok v) ∨
          (∀ km, env.newKeyManager key ≠ Ext.ok km))) :
    (LighterGetOrCreateSession env sessions u k c a i).ret = some (-1) ∧
    (LighterGetOrCreateSession env sessions u k c a i).sessions = sessions ∧
    (∀ (env2 : Env KM F) (u2 : String) (c2 a2 i2 : Int),
      (hexDecodeString k = none →
        (LighterGetOrCreateSession env2
          (LighterGetOrCreateSession env sessions u k c a i).sessions u2 k c2 a2 i2).ret
          = some (-1)) ∧
      (∀ key, hexDecodeString k = some key →
        findSession key (LighterGetOrCreateSession env sessions u k c a i).sessions 0 = none ∧
        Event.httpGetNextNonce u2 i2 (toUint8 a2)
          ∈ (LighterGetOrCreateSession env2
              (LighterGetOrCreateSession env sessions u k c a i).sessions u2 k c2 a2 i2).trace))
    := by
  have hres : (LighterGetOrCreateSession env sessions u k c a i).ret = some (-1) ∧
      (LighterGetOrCreateSession env sessions u k c a i).sessions = sessions := by
    rcases hfail with hk | ⟨key, hk, hf, hbad⟩
    · unfold LighterGetOrCreateSession
      simp only [hk]
      exact ⟨trivial, trivial⟩
    · unfold LighterGetOrCreateSession
      simp only [hk, hf]
      cases hn : env.getNextNonce u i (toUint8 a) with
      | panic => exact ⟨rfl, rfl⟩
      | error => exact ⟨rfl, rfl⟩
      | ok v =>
        simp only
        cases hm : env.newKeyManager key with
        | panic => exact ⟨rfl, rfl⟩
        | error => exact ⟨rfl, rfl⟩
        | ok km =>
          rcases hbad with hb | hb
          · exact absurd hn (hb v)
          · exact absurd hm (hb km)
  refine ⟨hres.1, hres.2, ?_⟩
  intro env2 u2 c2 a2 i2
  rw [hres.2]
  constructor
  · intro hk
    unfold LighterGetOrCreateSession
    simp only [hk]
  · intro key hk
    have hf : findSession key sessions 0 = none := by
      rcases hfail with hk0 | ⟨key0, hk0, hf0, _⟩
      · rw [hk0] at hk; cases hk
      · rw [hk0] at hk
        simp only [Option.some.injEq] at hk
        rw [← hk]; exact hf0
    exact ⟨hf, getOrCreateSession_fetches_when_new env2 sessions u2 k c2 a2 i2 key hk hf⟩

/-- Instance of C10: registering the new key `cd` while the network fetch
fails returns `-1` and leaves the one-session slice alone; a second attempt
with the same key calls the nonce fetch again. -/
theorem getOrCreateSession_failure_witness :
    hexDecodeString "cd" = some [205] ∧
    findSession [205] [demoSession [171] 5] 0 = none ∧
    (LighterGetOrCreateSession noNetworkEnv [demoSession [171] 5] "u" "cd" 1 2 7).ret
      = some (-1) ∧
    (LighterGetOrCreateSession noNetworkEnv [demoSession [171] 5] "u" "cd" 1 2 7).sessions
      = [demoSession [171] 5] ∧
    Event.httpGetNextNonce "u" 7 2 ∈
      (LighterGetOrCreateSession demoEnv
        (LighterGetOrCreateSession noNetworkEnv [demoSession [171] 5] "u" "cd" 1 2 7).sessions
        "u" "cd" 1 2 7).trace := by
  have hk : hexDecodeString "cd" = some [205] := by decide
  have hf : findSession [205] [demoSession [171] 5] 0 = none := by decide
  have h := getOrCreateSession_failure noNetworkEnv [demoSession [171] 5] "u" "cd" 1 2 7
    (Or.inr ⟨[205], hk, hf, Or.inl (fun v hv => by cases hv)⟩)
  exact ⟨hk, hf, h.1, h.2.1, ((h.2.2 demoEnv "u" 1 2 7).2 [205] hk).2⟩

/-! ## Session registry: creation -/

/-- C11 as stated fails outside the ranges of the typed locals of lines
67-68: registering a new key with `cChainId = -1` and `cApiKeyIndex = 258`
fetches the nonce of API key 2 and appends a session with chain id 4294967295
and API-key index 2, not the given -1 and 258. -/
theorem getOrCreateSession_new_key_narrowed :
    (LighterGetOrCreateSession demoEnv [] "u" "ab" (-1) 258 7).ret = some 0 ∧
    (LighterGetOrCreateSession demoEnv [] "u" "ab" (-1) 258 7).sessions.map
      Session.apiKeyIndex = [2] ∧
    (LighterGetOrCreateSession demoEnv [] "u" "ab" (-1) 258 7).sessions.map
      (fun s => (s.apiKeyIndex : Int)) ≠ [258] ∧
    (LighterGetOrCreateSession demoEnv [] "u" "ab" (-1) 258 7).sessions.map
      Session.chainId = [4294967295] ∧
    (LighterGetOrCreateSession demoEnv [] "u" "ab" (-1) 258 7).sessions.map
      (fun s => (s.chainId : Int)) ≠ [-1] ∧
    Event.httpGetNextNonce "u" 7 2
      ∈ (LighterGetOrCreateSession demoEnv [] "u" "ab" (-1) 258 7).trace := by
  refine ⟨?_, ?_, ?_, ?_, ?_, ?_⟩
  · decide
  · decide
  · decide
  · decide
  · decide
  · exact getOrCreateSession_fetches_when_new demoEnv [] "u" "ab" (-1) 258 7 [171]
      (by decide) rfl

/-- C11 (amended): when the key is valid hex, no session holds it, the nonce
fetch (made for the account index and the API-key index converted to `uint8`)
delivers `v` and the key-manager constructor delivers `km`,
`LighterGetOrCreateSession` on a slice of `n` sessions returns the handle `n`,
leaves a slice of `n + 1` sessions whose first `n` entries are the old ones,
and puts at index `n` the session with the decoded key, the chain id argument
converted to `uint32`, the given account index, the API-key index argument
converted to `uint8` (lines 67-69), the key manager `km`, and
`nextNonce = initNextNonce = v`.  The stored chain id and API-key index are the
arguments themselves whenever the chain id is not negative and the API-key
index is in 0..255. -/
theorem getOrCreateSession_new_key (env : Env KM F) (sessions : List (Session KM))
    (u k : String) (c a i : Int) (key : List Nat) (v : Int) (km : KM)
    (hlen : sessions.length < 2147483648)
    (hk : hexDecodeString k = some key)
    (hnew : ∀ s ∈ sessions, s.privateKey ≠ key)
    (hn : env.getNextNonce u i (toUint8 a) = Ext.ok v)
    (hm : env.newKeyManager key = Ext.ok km) :
    (LighterGetOrCreateSession env sessions u k c a i).ret = some (sessions.length : Int) ∧
    (LighterGetOrCreateSession env sessions u k c a i).sessions.length = sessions.length + 1 ∧
    (∀ (j : Nat) (s : Session KM), sessions[j]? = some s →
      (LighterGetOrCreateSession env sessions u k c a i).sessions[j]? = some s) ∧
    (LighterGetOrCreateSession env sessions u k c a i).sessions[sessions.length]?
      = some { privateKey := key
               chainId := toUint32 c
               accountIndex := i
               apiKeyIndex := toUint8 a
               nextNonce := v
               initNextNonce := v
               keyManager := km } ∧
    (0 ≤ c → c ≤ 2147483647 → toUint32 c = c.toNat) ∧
    (0 ≤ a → a ≤ 255 → toUint8 a = a.toNat) := by
  have hf : findSession key sessions 0 = none := (findSession_none_iff key sessions 0).2 hnew
  have hs : (LighterGetOrCreateSession env sessions u k c a i).sessions
      = sessions ++ [{ privateKey := key
                       chainId := toUint32 c
                       accountIndex := i
                       apiKeyIndex := toUint8 a
                       nextNonce := v
                       initNextNonce := v
                       keyManager := km }] := by
    unfold LighterGetOrCreateSession
    simp only [hk, hf, hn, hm]
  have hr : (LighterGetOrCreateSession env sessions u k c a i).ret
      = some (sessions.length : Int) := by
    unfold LighterGetOrCreateSession
    simp only [hk, hf, hn, hm, List.length_append, List.length_singleton, Nat.cast_add,
      Nat.cast_one, add_sub_cancel_right]
    rw [toCInt_of_lt hlen]
  refine ⟨hr, ?_, ?_, ?_, ?_, ?_⟩
  · rw [hs]; simp
  · intro j s hj
    rw [hs, List.getElem?_append_left (List.getElem?_eq_some_iff.1 hj).1]
    exact hj
  · rw [hs]; simp
  · intro h0 h1; exact toUint32_of_range h0 (by omega)
  · intro h0 h1; exact toUint8_of_range h0 h1

/-- Instance of C11: registering the new key `cd` next to the session of key
`ab` returns the handle 1 and appends the session built from the arguments and
the fetched nonce 5. -/
theorem getOrCreateSession_new_key_witness :
    (LighterGetOrCreateSession demoEnv [demoSession [171] 5] "u" "cd" 1 2 7).ret = some 1 ∧
    (LighterGetOrCreateSession demoEnv [demoSession [171] 5] "u" "cd" 1 2 7).sessions[0]?
      = some (demoSession [171] 5) ∧
    (LighterGetOrCreateSession demoEnv [demoSession [171] 5] "u" "cd" 1 2 7).sessions[1]?
      = some (demoSession [205] 5) := by
  have h := getOrCreateSession_new_key demoEnv [demoSession [171] 5] "u" "cd" 1 2 7 [205] 5 ()
    (by decide) (by decide) (by decide) rfl rfl
  exact ⟨h.1, h.2.2.1 0 _ rfl, h.2.2.2.1⟩

/-! ## Nonce state machine: read and advance -/

theorem index_of_inRange (sessions : List (Session KM)) (sid : Int)
    (h : ¬ (sid < 0 ∨ sid ≥ sessions.length)) : ∃ s, index sessions sid = some s := by
  have h0 : ¬ sid < 0 := fun hlt => h (Or.inl hlt)
  have h1 : sid.toNat < sessions.length := by omega
  refine ⟨sessions[sid.toNat], ?_⟩
  unfold index
  simp only [h0, if_false]
  exact List.getElem?_eq_getElem h1

theorem index_of_outOfRange (sessions : List (Session KM)) (sid : Int)
    (h : sid < 0 ∨ sid ≥ sessions.length) : index sessions sid = none := by
  unfold index
  by_cases h0 : sid < 0
  · simp [h0]
  · simp only [h0, if_false]
    exact List.getElem?_eq_none (by omega)

theorem toInt64_succ_of_lt {n : Int} (h : IsInt64 n) (hmax : n ≠ 9223372036854775807) :
    toInt64 (n + 1) = n + 1 := by
  unfold IsInt64 at h
  unfold toInt64
  omega

/-- C12: `LighterGetNextNonce` returns `-1` when the handle is negative or not
below the number of sessions, returns `-1` when the session's `nextNonce` is
below its `initNextNonce`, and returns the session's `nextNonce` otherwise
(every handle that is not out of range denotes a session); in all three cases
the slice after the call is the slice before it. -/
theorem getNextNonce_spec (sessions : List (Session KM)) (sid : Int) :
    (sid < 0 ∨ sid ≥ sessions.length →
      (LighterGetNextNonce sessions sid : Result KM F).ret = some (-1)) ∧
    (¬ (sid < 0 ∨ sid ≥ sessions.length) → ∃ s, index sessions sid = some s) ∧
    (∀ s, index sessions sid = some s →
      (s.nextNonce < s.initNextNonce →
        (LighterGetNextNonce sessions sid : Result KM F).ret = some (-1)) ∧
      (¬ s.nextNonce < s.initNextNonce →
        (LighterGetNextNonce sessions sid : Result KM F).ret = some s.nextNonce)) ∧
    (LighterGetNextNonce sessions sid : Result KM F).sessions = sessions := by
  refine ⟨?_, index_of_inRange sessions sid, ?_, getNextNonce_sessions sessions sid⟩
  · intro h
    unfold LighterGetNextNonce
    simp only [h, if_true]
  · intro s hi
    have hr := index_inRange hi
    constructor
    · intro hlt
      unfold LighterGetNextNonce
      simp only [hr, if_false, hi, hlt, if_true]
    · intro hge
      unfold LighterGetNextNonce
      simp only [hr, if_false, hi, hge]

/-- Instance of C12 on the slice holding one session with counter 5: handle 0
reads 5, handle 1 and handle -1 give `-1`, and a session below its floor gives
`-1`. -/
theorem getNextNonce_spec_witness :
    (LighterGetNextNonce [demoSession [171] 5] 0 : Result Unit Int).ret = some 5 ∧
    (LighterGetNextNonce [demoSession [171] 5] 1 : Result Unit Int).ret = some (-1) ∧
    (LighterGetNextNonce [demoSession [171] 5] (-1) : Result Unit Int).ret = some (-1) ∧
    (LighterGetNextNonce [{ demoSession [171] 5 with nextNonce := 4 }] 0
      : Result Unit Int).ret = some (-1) := by
  refine ⟨?_, ?_, ?_, ?_⟩
  · exact ((getNextNonce_spec (F := Int) [demoSession [171] 5] 0).2.2.1 _ rfl).2 (by decide)
  · exact (getNextNonce_spec (F := Int) [demoSession [171] 5] 1).1 (by decide)
  · exact (getNextNonce_spec (F := Int) [demoSession [171] 5] (-1)).1 (by decide)
  · exact ((getNextNonce_spec (F := Int) [{ demoSession [171] 5 with nextNonce := 4 }] 0).2.2.1
      _ rfl).1 (by decide)

/-- C13: `LighterAdvanceNextNonce` returns `-1` and leaves the slice as it was
when the handle is out of range or the session's `nextNonce` is below its
`initNextNonce`.  Otherwise it stores the `int64` successor of `nextNonce` in
that session, returns the stored value, and changes no other field of that
session and no other session.  The `int64` successor is the old value plus 1
for every counter below the largest `int64`. -/
theorem advanceNextNonce_spec (sessions : List (Session KM)) (sid : Int) :
    (sid < 0 ∨ sid ≥ sessions.length →
      (LighterAdvanceNextNonce sessions sid : Result KM F).ret = some (-1) ∧
      (LighterAdvanceNextNonce sessions sid : Result KM F).sessions = sessions) ∧
    (¬ (sid < 0 ∨ sid ≥ sessions.length) → ∃ s, index sessions sid = some s) ∧
    (∀ s, index sessions sid = some s →
      (s.nextNonce < s.initNextNonce →
        (LighterAdvanceNextNonce sessions sid : Result KM F).ret = some (-1) ∧
        (LighterAdvanceNextNonce sessions sid : Result KM F).sessions = sessions) ∧
      (¬ s.nextNonce < s.initNextNonce →
        (LighterAdvanceNextNonce sessions sid : Result KM F).ret
          = some (toInt64 (s.nextNonce + 1)) ∧
        (LighterAdvanceNextNonce sessions sid : Result KM F).sessions[sid.toNat]?
          = some { s with nextNonce := toInt64 (s.nextNonce + 1) } ∧
        (LighterAdvanceNextNonce sessions sid : Result KM F).sessions.length
          = sessions.length ∧
        (∀ (j : Nat), j ≠ sid.toNat →
          (LighterAdvanceNextNonce sessions sid : Result KM F).sessions[j]? = sessions[j]?) ∧
        (IsInt64 s.nextNonce → s.nextNonce ≠ 9223372036854775807 →
          toInt64 (s.nextNonce + 1) = s.nextNonce + 1))) := by
  refine ⟨?_, index_of_inRange sessions sid, ?_⟩
  · intro h
    unfold LighterAdvanceNextNonce
    simp only [h, if_true, and_self]
  · intro s hi
    have hr := index_inRange hi
    obtain ⟨_, hlt, _⟩ := index_eq_some hi
    constructor
    · intro hlow
      unfold LighterAdvanceNextNonce
      simp only [hr, if_false, hi, hlow, if_true, and_self]
    · intro hge
      have hs : (LighterAdvanceNextNonce sessions sid : Result KM F)
          = ⟨some (toInt64 (s.nextNonce + 1)),
              sessions.set sid.toNat { s with nextNonce := toInt64 (s.nextNonce + 1) },
              [], none, none⟩ := by
        unfold LighterAdvanceNextNonce
        simp only [hr, if_false, hi, hge]
      rw [hs]
      refine ⟨rfl, ?_, ?_, ?_, ?_⟩
      · simp [List.getElem?_set, hlt]
      · simp
      · intro j hj
        simp [List.getElem?_set, Ne.symm hj]
      · intro h64 hmax
        exact toInt64_succ_of_lt h64 hmax

/-- Instance of C13 on the slice holding the sessions of keys `ab` and `cd`,
both with counter 5: advancing handle 1 returns 6, stores 6 in session 1 and
leaves session 0 alone; handle 2 gives `-1`. -/
theorem advanceNextNonce_spec_witness :
    (LighterAdvanceNextNonce [demoSession [171] 5, demoSession [205] 5] 1
      : Result Unit Int).ret = some 6 ∧
    (LighterAdvanceNextNonce [demoSession [171] 5, demoSession [205] 5] 1
      : Result Unit Int).sessions[1]? = some { demoSession [205] 5 with nextNonce := 6 } ∧
    (LighterAdvanceNextNonce [demoSession [171] 5, demoSession [205] 5] 1
      : Result Unit Int).sessions[0]? = some (demoSession [171] 5) ∧
    (LighterAdvanceNextNonce [demoSession [171] 5, demoSession [205] 5] 2
      : Result Unit Int).ret = some (-1) := by
  have h := advanceNextNonce_spec (F := Int) [demoSession [171] 5, demoSession [205] 5] 1
  have h1 := (h.2.2 (demoSession [205] 5) rfl).2 (by decide)
  refine ⟨h1.1, h1.2.1, ?_, ?_⟩
  · rw [h1.2.2.2.1 0 (by decide)]; rfl
  · exact ((advanceNextNonce_spec (F := Int) [demoSession [171] 5, demoSession [205] 5] 2).1
      (by decide)).1

/-! ## Faults at the boundary -/

/-- What the three signing functions do on a handle outside the slice, for
every slice: the index expression panics and nothing intercepts the panic, so
the call ends without a return value. -/
theorem sign_outOfRange (env : Env KM F) (sessions : List (Session KM)) (sid : Int)
    (h : sid < 0 ∨ sid ≥ sessions.length)
    (m c b p a o t r tp oe n e d : Int) :
    (LighterSignCreateOrder env sessions sid m c b p a o t r tp oe n e).ret = none ∧
    (LighterSignCancelOrder env sessions sid m o n e).ret = none ∧
    (LighterGetAuthToken env sessions sid d).ret = none := by
  have hi := index_of_outOfRange sessions sid h
  refine ⟨?_, ?_, ?_⟩
  · unfold LighterSignCreateOrder; simp only [hi]
  · unfold LighterSignCancelOrder; simp only [hi]
  · unfold LighterGetAuthToken; simp only [hi]

/-- C14 (evaluation of the code): on the slice holding one session, the
handles 1 and -1 are out of range; `LighterSignCreateOrder`,
`LighterSignCancelOrder` and `LighterGetAuthToken` end in an uncaught panic
there (no return value, so not `-1`), also on the empty slice with handle 0,
while `LighterGetNextNonce`, `LighterAdvanceNextNonce` and
`LighterRewindNextNonce` return `-1` on the same handle. -/
theorem sign_out_of_range_faults :
    (LighterSignCreateOrder demoEnv [demoSession [171] 5] 1 3 42 1000 500 1 0 0 0 0 0 5 100).ret
      = none ∧
    (LighterSignCancelOrder demoEnv [demoSession [171] 5] (-1) 3 9 5 100).ret = none ∧
    (LighterGetAuthToken demoEnv [demoSession [171] 5] 1 1700000000).ret = none ∧
    (LighterGetAuthToken demoEnv [] 0 1700000000).ret = none ∧
    (LighterGetNextNonce [demoSession [171] 5] 1 : Result Unit Int).ret = some (-1) ∧
    (LighterAdvanceNextNonce [demoSession [171] 5] 1 : Result Unit Int).ret = some (-1) ∧
    (LighterRewindNextNonce [demoSession [171] 5] 1 : Result Unit Int).ret = some (-1) :=
  ⟨rfl, rfl, rfl, rfl, rfl, rfl, rfl⟩

/-! ## Nonce state machine: range of the counter -/

/-- C15 as stated fails at the largest `int64`: on a session whose counter and
floor are `2^63 - 1`, `LighterAdvanceNextNonce` takes its success branch,
returns `-2^63` and stores `-2^63`, which is below the counter before the
call. -/
theorem advanceNextNonce_wraps_at_max :
    index [demoSession [171] 9223372036854775807] 0
      = some (demoSession [171] 9223372036854775807) ∧
    (LighterAdvanceNextNonce [demoSession [171] 9223372036854775807] 0
      : Result Unit Int).ret = some (-9223372036854775808) ∧
    (LighterAdvanceNextNonce [demoSession [171] 9223372036854775807] 0
      : Result Unit Int).trace = [] ∧
    (LighterAdvanceNextNonce [demoSession [171] 9223372036854775807] 0
      : Result Unit Int).sessions.map Session.nextNonce = [-9223372036854775808] ∧
    ¬ ((9223372036854775807 : Int) < -9223372036854775808) :=
  ⟨rfl, rfl, rfl, rfl, by decide⟩

/-- C15 (amended): when `LighterAdvanceNextNonce` takes its success branch on a
session whose `int64` counter is below `2^63 - 1`, the value it returns and the
counter it stores are the old counter plus 1, strictly greater than the counter
before the call; at `2^63 - 1` the stored and returned value is `-2^63`. -/
theorem advanceNextNonce_increases (sessions : List (Session KM)) (sid : Int) (s : Session KM)
    (hi : index sessions sid = some s) (h64 : IsInt64 s.nextNonce)
    (hge : ¬ s.nextNonce < s.initNextNonce) :
    (∃ v, (LighterAdvanceNextNonce sessions sid : Result KM F).ret = some v ∧
      (LighterAdvanceNextNonce sessions sid : Result KM F).sessions[sid.toNat]?
        = some { s with nextNonce := v } ∧
      (s.nextNonce ≠ 9223372036854775807 → v = s.nextNonce + 1 ∧ s.nextNonce < v) ∧
      (s.nextNonce = 9223372036854775807 → v = -9223372036854775808)) := by
  have hr := index_inRange hi
  obtain ⟨_, hlt, _⟩ := index_eq_some hi
  have hs : (LighterAdvanceNextNonce sessions sid : Result KM F)
      = ⟨some (toInt64 (s.nextNonce + 1)),
          sessions.set sid.toNat { s with nextNonce := toInt64 (s.nextNonce + 1) },
          [], none, none⟩ := by
    unfold LighterAdvanceNextNonce
    simp only [hr, if_false, hi, hge]
  refine ⟨toInt64 (s.nextNonce + 1), by rw [hs], ?_, ?_, ?_⟩
  · rw [hs]; simp [List.getElem?_set, hlt]
  · intro hmax
    rw [toInt64_succ_of_lt h64 hmax]
    exact ⟨rfl, by omega⟩
  · intro hmax
    rw [hmax]; rfl

/-- Instance of C15 (amended): advancing the counter 5 returns and stores 6. -/
theorem advanceNextNonce_increases_witness :
    (LighterAdvanceNextNonce [demoSession [171] 5] 0 : Result Unit Int).ret = some 6 ∧
    (LighterAdvanceNextNonce [demoSession [171] 5] 0 : Result Unit Int).sessions[0]?
      = some { demoSession [171] 5 with nextNonce := 6 } ∧
    (5 : Int) < 6 := by
  obtain ⟨v, hv, hs, hlt, _⟩ := advanceNextNonce_increases (F := Int) [demoSession [171] 5] 0
    (demoSession [171] 5) rfl (by decide) (by decide)
  have h6 : v = 6 := (hlt (by decide)).1
  subst h6
  exact ⟨hv, hs, by decide⟩

/-- C16 as stated fails for a negative starting nonce: on a session whose
counter and floor are `-1` (a value the network fetch may deliver),
`LighterGetNextNonce` takes its success branch (in-range handle, counter not
below the floor, no diagnostic) and returns `-1`; so does
`LighterAdvanceNextNonce` from the counter `-2`. -/
theorem nonce_success_returns_sentinel :
    index [demoSession [171] (-1)] 0 = some (demoSession [171] (-1)) ∧
    ¬ ((demoSession [171] (-1)).nextNonce < (demoSession [171] (-1)).initNextNonce) ∧
    (LighterGetNextNonce [demoSession [171] (-1)] 0 : Result Unit Int).ret = some (-1) ∧
    (LighterGetNextNonce [demoSession [171] (-1)] 0 : Result Unit Int).trace = [] ∧
    (LighterAdvanceNextNonce [demoSession [171] (-2)] 0 : Result Unit Int).ret = some (-1) ∧
    (LighterAdvanceNextNonce [demoSession [171] (-2)] 0 : Result Unit Int).trace = [] :=
  ⟨rfl, by decide, rfl, rfl, rfl, rfl⟩

/-- C16 (amended): the three nonce functions return `-1` whenever they fail
(handle out of range, or floor test violated); and on a session whose
`initNextNonce` is not negative and whose counter is an `int64`, each of them
returns `-1` only when it fails.  The floor test of `LighterGetNextNonce` and
`LighterAdvanceNextNonce` is on the counter, the one of
`LighterRewindNextNonce` on the decremented counter. -/
theorem nonce_sentinel_iff (sessions : List (Session KM)) (sid : Int) :
    (sid < 0 ∨ sid ≥ sessions.length →
      (LighterGetNextNonce sessions sid : Result KM F).ret = some (-1) ∧
      (LighterAdvanceNextNonce sessions sid : Result KM F).ret = some (-1) ∧
      (LighterRewindNextNonce sessions sid : Result KM F).ret = some (-1)) ∧
    (∀ s, index sessions sid = some s →
      (s.nextNonce < s.initNextNonce →
        (LighterGetNextNonce sessions sid : Result KM F).ret = some (-1) ∧
        (LighterAdvanceNextNonce sessions sid : Result KM F).ret = some (-1)) ∧
      (toInt64 (s.nextNonce - 1) < s.initNextNonce →
        (LighterRewindNextNonce sessions sid : Result KM F).ret = some (-1)) ∧
      (0 ≤ s.initNextNonce → IsInt64 s.nextNonce →
        ((LighterGetNextNonce sessions sid : Result KM F).ret = some (-1) ↔
          s.nextNonce < s.initNextNonce) ∧
        ((LighterAdvanceNextNonce sessions sid : Result KM F).ret = some (-1) ↔
          s.nextNonce < s.initNextNonce) ∧
        ((LighterRewindNextNonce sessions sid : Result KM F).ret = some (-1) ↔
          toInt64 (s.nextNonce - 1) < s.initNextNonce))) := by
  constructor
  · intro h
    refine ⟨?_, ?_, ?_⟩
    · unfold LighterGetNextNonce; simp only [h, if_true]
    · unfold LighterAdvanceNextNonce; simp only [h, if_true]
    · unfold LighterRewindNextNonce; simp only [h, if_true]
  · intro s hi
    have hr := index_inRange hi
    have hget : (LighterGetNextNonce sessions sid : Result KM F).ret
        = if s.nextNonce < s.initNextNonce then some (-1) else some s.nextNonce := by
      unfold LighterGetNextNonce
      simp only [hr, if_false, hi]
      split <;> rfl
    have hadv : (LighterAdvanceNextNonce sessions sid : Result KM F).ret
        = if s.nextNonce < s.initNextNonce then some (-1)
          else some (toInt64 (s.nextNonce + 1)) := by
      unfold LighterAdvanceNextNonce
      simp only [hr, if_false, hi]
      split <;> rfl
    have hrew : (LighterRewindNextNonce sessions sid : Result KM F).ret
        = if toInt64 (s.nextNonce - 1) < s.initNextNonce then some (-1)
          else some (toInt64 (s.nextNonce - 1)) := by
      unfold LighterRewindNextNonce
      simp only [hr, if_false, hi]
      split <;> rfl
    rw [hget, hadv, hrew]
    refine ⟨?_, ?_, ?_⟩
    · intro hlt; simp [hlt]
    · intro hlt; simp [hlt]
    · intro h0 h64
      unfold IsInt64 at h64
      refine ⟨?_, ?_, ?_⟩
      · by_cases hlt : s.nextNonce < s.initNextNonce
        · simp [hlt]
        · simp only [hlt, if_false, Option.some.injEq, iff_false]
          omega
      · by_cases hlt : s.nextNonce < s.initNextNonce
        · simp [hlt]
        · simp only [hlt, if_false, Option.some.injEq, iff_false]
          unfold toInt64
          omega
      · by_cases hlt : toInt64 (s.nextNonce - 1) < s.initNextNonce
        · simp [hlt]
        · simp only [hlt, if_false, Option.some.injEq, iff_false]
          omega

/-- Instance of C16 (amended): with floor 5 and counter 5 the read returns 5
and the advance 6, neither of them `-1`, and the rewind, whose floor test
fails, returns `-1`. -/
theorem nonce_sentinel_iff_witness :
    (LighterGetNextNonce [demoSession [171] 5] 0 : Result Unit Int).ret ≠ some (-1) ∧
    (LighterAdvanceNextNonce [demoSession [171] 5] 0 : Result Unit Int).ret ≠ some (-1) ∧
    (LighterRewindNextNonce [demoSession [171] 5] 0 : Result Unit Int).ret = some (-1) := by
  have h := (nonce_sentinel_iff (F := Int) [demoSession [171] 5] 0).2 (demoSession [171] 5) rfl
  have h2 := h.2.2 (by decide) (by decide)
  refine ⟨?_, ?_, ?_⟩
  · intro hc; exact absurd (h2.1.1 hc) (by decide)
  · intro hc; exact absurd (h2.2.1.1 hc) (by decide)
  · exact h.2.1 (by decide)

/-! ## Frame of the creation-time fields -/

theorem advanceNextNonce_sessions_cases (sessions : List (Session KM)) (sid : Int) :
    (LighterAdvanceNextNonce sessions sid : Result KM F).sessions = sessions ∨
    ∃ s x, index sessions sid = some s ∧
      (LighterAdvanceNextNonce sessions sid : Result KM F).sessions
        = sessions.set sid.toNat { s with nextNonce := x } := by
  unfold LighterAdvanceNextNonce
  dsimp only
  split
  · exact Or.inl rfl
  · split
    · exact Or.inl rfl
    · rename_i session hi
      split
      · exact Or.inl rfl
      · exact Or.inr ⟨session, _, hi, rfl⟩

theorem rewindNextNonce_sessions_cases (sessions : List (Session KM)) (sid : Int) :
    (LighterRewindNextNonce sessions sid : Result KM F).sessions = sessions ∨
    ∃ s x, index sessions sid = some s ∧
      (LighterRewindNextNonce sessions sid : Result KM F).sessions
        = sessions.set sid.toNat { s with nextNonce := x } := by
  unfold LighterRewindNextNonce
  dsimp only
  split
  · exact Or.inl rfl
  · split
    · exact Or.inl rfl
    · rename_i session hi
      split
      · exact Or.inr ⟨session, _, hi, rfl⟩
      · exact Or.inr ⟨session, _, hi, rfl⟩

theorem set_nextNonce_frame {sessions : List (Session KM)} {sid : Int} {s0 : Session KM}
    (h0 : index sessions sid = some s0) (x : Int) (i : Nat) (s : Session KM)
    (hi : sessions[i]? = some s) :
    ∃ t, (sessions.set sid.toNat { s0 with nextNonce := x })[i]? = some t ∧
      t.privateKey = s.privateKey ∧ t.chainId = s.chainId ∧
      t.accountIndex = s.accountIndex ∧ t.apiKeyIndex = s.apiKeyIndex ∧
      t.initNextNonce = s.initNextNonce ∧ t.keyManager = s.keyManager ∧
      (t.nextNonce ≠ s.nextNonce → sid = (i : Int)) := by
  obtain ⟨hnn, hlt, hget⟩ := index_eq_some h0
  by_cases hsi : sid.toNat = i
  · subst hsi
    rw [hget] at hi
    simp only [Option.some.injEq] at hi
    subst hi
    refine ⟨{ s0 with nextNonce := x }, by simp [List.getElem?_set, hlt],
      rfl, rfl, rfl, rfl, rfl, rfl, ?_⟩
    intro _
    omega
  · refine ⟨s, by simp [List.getElem?_set, hsi, hi], rfl, rfl, rfl, rfl, rfl, rfl, ?_⟩
    intro hne
    exact absurd rfl hne

/-- C17: whatever exported function is called, with whatever arguments and
whatever the collaborators do, every index that denotes a session before the
call denotes a session afterwards, with the same private key, chain id, account
index, API-key index, floor `initNextNonce` and key manager; its `nextNonce`
differs only if the call was `LighterAdvanceNextNonce` or
`LighterRewindNextNonce` on that very index. -/
theorem run_frame (env : Env KM F) (sessions : List (Session KM)) (op : Op)
    (i : Nat) (s : Session KM) (hi : sessions[i]? = some s) :
    ∃ t, (run env sessions op).sessions[i]? = some t ∧
      t.privateKey = s.privateKey ∧ t.chainId = s.chainId ∧
      t.accountIndex = s.accountIndex ∧ t.apiKeyIndex = s.apiKeyIndex ∧
      t.initNextNonce = s.initNextNonce ∧ t.keyManager = s.keyManager ∧
      (t.nextNonce ≠ s.nextNonce →
        op = Op.advanceNextNonce (i : Int) ∨ op = Op.rewindNextNonce (i : Int)) := by
  have same : ∀ l : List (Session KM), l = sessions →
      ∃ t, l[i]? = some t ∧
        t.privateKey = s.privateKey ∧ t.chainId = s.chainId ∧
        t.accountIndex = s.accountIndex ∧ t.apiKeyIndex = s.apiKeyIndex ∧
        t.initNextNonce = s.initNextNonce ∧ t.keyManager = s.keyManager ∧
        (t.nextNonce ≠ s.nextNonce →
          op = Op.advanceNextNonce (i : Int) ∨ op = Op.rewindNextNonce (i : Int)) := by
    intro l hl
    subst hl
    exact ⟨s, hi, rfl, rfl, rfl, rfl, rfl, rfl, fun hne => absurd rfl hne⟩
  cases op with
  | getOrCreateSession u k c a j =>
    rcases getOrCreateSession_keys env sessions u k c a j with he | ⟨t, _, he⟩
    · exact same _ he
    · refine ⟨s, ?_, rfl, rfl, rfl, rfl, rfl, rfl, fun hne => absurd rfl hne⟩
      simp only [run, he]
      rw [List.getElem?_append_left (List.getElem?_eq_some_iff.1 hi).1]
      exact hi
  | getNextNonce sid => exact same _ (getNextNonce_sessions sessions sid)
  | advanceNextNonce sid =>
    rcases advanceNextNonce_sessions_cases (F := F) sessions sid with he | ⟨s0, x, h0, he⟩
    · exact same _ he
    · obtain ⟨t, ht, h1, h2, h3, h4, h5, h6, h7⟩ := set_nextNonce_frame h0 x i s hi
      refine ⟨t, ?_, h1, h2, h3, h4, h5, h6, ?_⟩
      · simp only [run, he]; exact ht
      · intro hne; rw [h7 hne]; exact Or.inl rfl
  | rewindNextNonce sid =>
    rcases rewindNextNonce_sessions_cases (F := F) sessions sid with he | ⟨s0, x, h0, he⟩
    · exact same _ he
    · obtain ⟨t, ht, h1, h2, h3, h4, h5, h6, h7⟩ := set_nextNonce_frame h0 x i s hi
      refine ⟨t, ?_, h1, h2, h3, h4, h5, h6, ?_⟩
      · simp only [run, he]; exact ht
      · intro hne; rw [h7 hne]; exact Or.inr rfl
  | signCreateOrder sid m c b p a o t r tp oe n e =>
    exact same _ (signCreateOrder_sessions env sessions sid m c b p a o t r tp oe n e)
  | signCancelOrder sid m o n e => exact same _ (signCancelOrder_sessions env sessions sid m o n e)
  | getAuthToken sid d => exact same _ (getAuthToken_sessions env sessions sid d)

/-- Instance of C17: a failing rewind on handle 0 changes the counter of
session 0 and nothing else of it. -/
theorem run_frame_witness :
    ∃ t, (run demoEnv [demoSession [171] 5] (Op.rewindNextNonce 0)).sessions[0]? = some t ∧
      t.privateKey = [171] ∧ t.chainId = 1 ∧ t.accountIndex = 7 ∧ t.apiKeyIndex = 2 ∧
      t.initNextNonce = 5 := by
  obtain ⟨t, ht, h1, h2, h3, h4, h5, _, _⟩ :=
    run_frame demoEnv [demoSession [171] 5] (Op.rewindNextNonce 0) 0 (demoSession [171] 5) rfl
  exact ⟨t, ht, h1, h2, h3, h4, h5⟩

/-! ## Auth token -/

theorem toString_int_of_nonneg (d : Int) (h : 0 ≤ d) : toString d = toString d.toNat := by
  cases d with
  | ofNat n => rfl
  | negSucc n => exact absurd h (not_le.2 (Int.negSucc_lt_zero n))

theorem toString_int_of_neg (d : Int) (h : d < 0) : toString d = "-" ++ toString (-d).toNat := by
  cases d with
  | ofNat n => exact absurd h (not_lt.2 (Int.ofNat_nonneg n))
  | negSucc n => rfl

theorem hashAndSign_trace (env : Env KM F) (sessions : List (Session KM)) (session : Session KM)
    (done : List (Event F)) (out : Option (List F)) (input : List F) :
    ∃ rest, (hashAndSign env sessions session done out input).trace
      = done ++ [Event.hashToQuinticExtension input,
          Event.sign2 (env.hashToQuinticExtension input)] ++ rest := by
  unfold hashAndSign
  dsimp only
  split
  · exact ⟨[], by simp⟩
  · exact ⟨_, rfl⟩
  · split
    · exact ⟨_, rfl⟩
    · exact ⟨[], by simp⟩

/-- C18: on an in-range handle, the bytes `LighterGetAuthToken` hands to the
field conversion are those of the text made of the decimal rendering of the
deadline, a colon, the decimal rendering of the session's account index, a
colon, and the decimal rendering of the session's API-key index (a negative
number renders as a minus sign and its magnitude).  Whenever the conversion
delivers field elements the call goes on to hash them and to call `Sign2` on
the digest, whatever `nextNonce` and `initNextNonce` are; and two sessions
that agree on account index, API-key index and key manager get the same return
value, trace and signature, whatever their counters. -/
theorem getAuthToken_message (env : Env KM F) (sessions : List (Session KM)) (sid d : Int)
    (s : Session KM) (hi : index sessions sid = some s) :
    (∃ rest, (LighterGetAuthToken env sessions sid d).trace
      = Event.arrayFromCanonicalLittleEndianBytes
          ((toString d ++ ":" ++ toString s.accountIndex ++ ":"
            ++ toString s.apiKeyIndex).toList.map Char.toNat) :: rest) ∧
    (∀ x : Int, (0 ≤ x → toString x = toString x.toNat) ∧
      (x < 0 → toString x = "-" ++ toString (-x).toNat)) ∧
    (∀ msgInField,
      env.arrayFromCanonicalLittleEndianBytes
        ((authMessage d s.accountIndex s.apiKeyIndex).toList.map Char.toNat)
        = Ext.ok msgInField →
      Event.hashToQuinticExtension msgInField ∈ (LighterGetAuthToken env sessions sid d).trace ∧
      Event.sign2 (env.hashToQuinticExtension msgInField)
        ∈ (LighterGetAuthToken env sessions sid d).trace) ∧
    (∀ (sessions2 : List (Session KM)) (sid2 : Int) (s2 : Session KM),
      index sessions2 sid2 = some s2 → s2.accountIndex = s.accountIndex →
      s2.apiKeyIndex = s.apiKeyIndex → s2.keyManager = s.keyManager →
      (LighterGetAuthToken env sessions2 sid2 d).ret = (LighterGetAuthToken env sessions sid d).ret ∧
      (LighterGetAuthToken env sessions2 sid2 d).trace
        = (LighterGetAuthToken env sessions sid d).trace ∧
      (LighterGetAuthToken env sessions2 sid2 d).sig
        = (LighterGetAuthToken env sessions sid d).sig) := by
  refine ⟨?_, fun x => ⟨toString_int_of_nonneg x, toString_int_of_neg x⟩, ?_, ?_⟩
  · unfold LighterGetAuthToken
    simp only [hi]
    cases env.arrayFromCanonicalLittleEndianBytes
        ((authMessage d s.accountIndex s.apiKeyIndex).toList.map Char.toNat) with
    | panic => exact ⟨[], rfl⟩
    | error => exact ⟨_, rfl⟩
    | ok msgInField =>
      obtain ⟨rest, hrest⟩ := hashAndSign_trace env sessions s
        [Event.arrayFromCanonicalLittleEndianBytes
          ((authMessage d s.accountIndex s.apiKeyIndex).toList.map Char.toNat)] none msgInField
      exact ⟨_, by rw [hrest]; rfl⟩
  · intro msgInField hc
    unfold LighterGetAuthToken
    simp only [hi, hc]
    obtain ⟨rest, hrest⟩ := hashAndSign_trace env sessions s
      [Event.arrayFromCanonicalLittleEndianBytes
        ((authMessage d s.accountIndex s.apiKeyIndex).toList.map Char.toNat)] none msgInField
    rw [hrest]
    simp
  · intro sessions2 sid2 s2 hi2 ha hk hm
    unfold LighterGetAuthToken
    simp only [hi, hi2, ha, hk]
    cases env.arrayFromCanonicalLittleEndianBytes
        ((authMessage d s.accountIndex s.apiKeyIndex).toList.map Char.toNat) with
    | panic => exact ⟨rfl, rfl, rfl⟩
    | error => exact ⟨rfl, rfl, rfl⟩
    | ok msgInField =>
      simp only [hashAndSign, hm]
      cases env.sign2 s.keyManager (env.hashToQuinticExtension msgInField) with
      | panic => exact ⟨rfl, rfl, rfl⟩
      | error => exact ⟨rfl, rfl, rfl⟩
      | ok signature =>
        by_cases hl : signature.length = 80
        · simp [hl]
        · simp [hl]

/-- Instance of C18: for deadline 1700000000, account 7 and API key 2 the
text is `1700000000:7:2`, and the call signs although the session is below its
floor (counter 4, floor 5). -/
theorem getAuthToken_message_witness :
    (∃ rest, (LighterGetAuthToken demoEnv [{ demoSession [171] 5 with nextNonce := 4 }] 0
        1700000000).trace
      = Event.arrayFromCanonicalLittleEndianBytes
          ("1700000000:7:2".toList.map Char.toNat) :: rest) ∧
    (LighterGetAuthToken demoEnv [{ demoSession [171] 5 with nextNonce := 4 }] 0
      1700000000).ret = some 0 := by
  have h := getAuthToken_message demoEnv [{ demoSession [171] 5 with nextNonce := 4 }] 0
    1700000000 { demoSession [171] 5 with nextNonce := 4 } rfl
  exact ⟨h.1, rfl⟩

/-! ## Signing leaves the nonce alone -/

theorem createOrder_elems_of_guard (env : Env KM F) (sessions : List (Session KM)) (sid : Int)
    (s : Session KM) (hi : index sessions sid = some s)
    (m c b p a o t r tp oe n e : Int) (hn : n = s.nextNonce) :
    (LighterSignCreateOrder env sessions sid m c b p a o t r tp oe n e).elems
      = some (createOrderElems env s (toInt16 m) c b (toUint32 p) (toUint8 a) (toUint8 o)
          (toUint8 t) (toUint8 r) (toUint32 tp) oe n e) := by
  unfold LighterSignCreateOrder
  simp only [hi, ne_eq, hn, not_true_eq_false, if_false, hashAndSign_elems]

theorem cancelOrder_elems_of_guard (env : Env KM F) (sessions : List (Session KM)) (sid : Int)
    (s : Session KM) (hi : index sessions sid = some s)
    (m o n e : Int) (hn : n = s.nextNonce) :
    (LighterSignCancelOrder env sessions sid m o n e).elems
      = some (cancelOrderElems env s (toInt16 m) o n e) := by
  unfold LighterSignCancelOrder
  simp only [hi, ne_eq, hn, not_true_eq_false, if_false, hashAndSign_elems]

/-- C19: `LighterSignCreateOrder`, `LighterSignCancelOrder` and
`LighterGetAuthToken` return the slice they were given, for every handle and
whatever the outcome, so every session keeps its `nextNonce`.  Hence, when a
create-order or cancel-order call with nonce `n` passes the nonce guard on
handle `sid`, the handle still denotes the same session afterwards, and a
create-order or cancel-order call that follows on the same handle with the
same nonce passes the guard as well: it writes the encoded sequence through
`cElems`, which a call stopped by the guard does not. -/
theorem sign_keeps_nonce (env env2 : Env KM F) (sessions : List (Session KM)) (sid : Int)
    (s : Session KM) (hi : index sessions sid = some s) (n : Int) (hn : n = s.nextNonce)
    (m c b p a o t r tp oe e cm co ce : Int) :
    (∀ (sid1 m1 c1 b1 p1 a1 o1 t1 r1 tp1 oe1 n1 e1 d1 : Int),
      (LighterSignCreateOrder env sessions sid1 m1 c1 b1 p1 a1 o1 t1 r1 tp1 oe1 n1 e1).sessions
        = sessions ∧
      (LighterSignCancelOrder env sessions sid1 m1 o1 n1 e1).sessions = sessions ∧
      (LighterGetAuthToken env sessions sid1 d1).sessions = sessions) ∧
    index (LighterSignCreateOrder env sessions sid m c b p a o t r tp oe n e).sessions sid
      = some s ∧
    index (LighterSignCancelOrder env sessions sid cm co n ce).sessions sid = some s ∧
    (∀ (m2 c2 b2 p2 a2 o2 t2 r2 tp2 oe2 e2 : Int),
      (LighterSignCreateOrder env2
        (LighterSignCreateOrder env sessions sid m c b p a o t r tp oe n e).sessions
        sid m2 c2 b2 p2 a2 o2 t2 r2 tp2 oe2 n e2).elems
        = some (createOrderElems env2 s (toInt16 m2) c2 b2 (toUint32 p2) (toUint8 a2)
            (toUint8 o2) (toUint8 t2) (toUint8 r2) (toUint32 tp2) oe2 n e2) ∧
      (LighterSignCreateOrder env2
        (LighterSignCancelOrder env sessions sid cm co n ce).sessions
        sid m2 c2 b2 p2 a2 o2 t2 r2 tp2 oe2 n e2).elems
        = some (createOrderElems env2 s (toInt16 m2) c2 b2 (toUint32 p2) (toUint8 a2)
            (toUint8 o2) (toUint8 t2) (toUint8 r2) (toUint32 tp2) oe2 n e2)) ∧
    (∀ (m2 o2 e2 : Int),
      (LighterSignCancelOrder env2
        (LighterSignCreateOrder env sessions sid m c b p a o t r tp oe n e).sessions
        sid m2 o2 n e2).elems
        = some (cancelOrderElems env2 s (toInt16 m2) o2 n e2) ∧
      (LighterSignCancelOrder env2
        (LighterSignCancelOrder env sessions sid cm co n ce).sessions
        sid m2 o2 n e2).elems
        = some (cancelOrderElems env2 s (toInt16 m2) o2 n e2)) ∧
    (∀ (env3 : Env KM F) (n3 m3 c3 b3 p3 a3 o3 t3 r3 tp3 oe3 e3 : Int), n3 ≠ s.nextNonce →
      (LighterSignCreateOrder env3 sessions sid m3 c3 b3 p3 a3 o3 t3 r3 tp3 oe3 n3 e3).elems = none ∧
      (LighterSignCancelOrder env3 sessions sid m3 o3 n3 e3).elems = none) := by
  have hcreate : ∀ (env0 : Env KM F) (m2 c2 b2 p2 a2 o2 t2 r2 tp2 oe2 e2 : Int),
      (LighterSignCreateOrder env0 sessions sid m2 c2 b2 p2 a2 o2 t2 r2 tp2 oe2 n e2).elems
        = some (createOrderElems env0 s (toInt16 m2) c2 b2 (toUint32 p2) (toUint8 a2)
            (toUint8 o2) (toUint8 t2) (toUint8 r2) (toUint32 tp2) oe2 n e2) := by
    intro env0 m2 c2 b2 p2 a2 o2 t2 r2 tp2 oe2 e2
    unfold LighterSignCreateOrder
    simp only [hi, ne_eq, hn, not_true_eq_false, if_false, hashAndSign_elems]
  have hcancel : ∀ (env0 : Env KM F) (m2 o2 e2 : Int),
      (LighterSignCancelOrder env0 sessions sid m2 o2 n e2).elems
        = some (cancelOrderElems env0 s (toInt16 m2) o2 n e2) := by
    intro env0 m2 o2 e2
    unfold LighterSignCancelOrder
    simp only [hi, ne_eq, hn, not_true_eq_false, if_false, hashAndSign_elems]
  refine ⟨?_, ?_, ?_, ?_, ?_, ?_⟩
  · intro sid1 m1 c1 b1 p1 a1 o1 t1 r1 tp1 oe1 n1 e1 d1
    exact ⟨signCreateOrder_sessions _ _ _ _ _ _ _ _ _ _ _ _ _ _ _,
      signCancelOrder_sessions _ _ _ _ _ _ _, getAuthToken_sessions _ _ _ _⟩
  · rw [signCreateOrder_sessions]; exact hi
  · rw [signCancelOrder_sessions]; exact hi
  · intro m2 c2 b2 p2 a2 o2 t2 r2 tp2 oe2 e2
    rw [signCreateOrder_sessions, signCancelOrder_sessions]
    exact ⟨hcreate env2 _ _ _ _ _ _ _ _ _ _ _, hcreate env2 _ _ _ _ _ _ _ _ _ _ _⟩
  · intro m2 o2 e2
    rw [signCreateOrder_sessions, signCancelOrder_sessions]
    exact ⟨hcancel env2 _ _ _, hcancel env2 _ _ _⟩
  · intro env3 n3 m3 c3 b3 p3 a3 o3 t3 r3 tp3 oe3 e3 hne
    constructor
    · unfold LighterSignCreateOrder
      simp only [hi, ne_eq, hne, not_false_eq_true, if_true]
    · unfold LighterSignCancelOrder
      simp only [hi, ne_eq, hne, not_false_eq_true, if_true]

/-- Instance of C19: two create-order calls in a row with nonce 5; the second
finds the session as the first did and writes the same sixteen fields. -/
theorem sign_keeps_nonce_witness :
    (LighterSignCreateOrder demoEnv [demoSession [171] 5] 0 3 42 1000 500 1 0 0 0 0 0 5
      100).sessions = [demoSession [171] 5] ∧
    (LighterSignCreateOrder demoEnv
      (LighterSignCreateOrder demoEnv [demoSession [171] 5] 0 3 42 1000 500 1 0 0 0 0 0 5
        100).sessions 0 3 42 1000 500 1 0 0 0 0 0 5 100).elems
      = some [1, 14, 5, 100, 7, 2, 3, 42, 1000, 500, 1, 0, 0, 0, 0, 0] := by
  have h := sign_keeps_nonce demoEnv demoEnv [demoSession [171] 5] 0 (demoSession [171] 5) rfl
    5 rfl 3 42 1000 500 1 0 0 0 0 0 100 3 9 100
  refine ⟨(h.1 0 3 42 1000 500 1 0 0 0 0 0 5 100 0).1, ?_⟩
  rw [(h.2.2.2.1 3 42 1000 500 1 0 0 0 0 0 100).1]
  decide

/-! ## Narrowing of the market index -/

/-- C20: when the nonce guard passes on an in-range handle, element 6 of the
sequence written by `LighterSignCreateOrder` and by `LighterSignCancelOrder`
is the embedding of the C argument `cMarketIndex` truncated to `int16` and
converted from there to `uint32`.  That value keeps the low 16 bits of the
argument and fills the high 16 bits with copies of bit 15; it is the argument
itself for 0..32767, and `2^32 - 2^16 +` the argument for 32768..65535
(4294934528 for 32768). -/
theorem marketIndex_narrowing (env : Env KM F) (sessions : List (Session KM)) (sid : Int)
    (s : Session KM) (hi : index sessions sid = some s) (n : Int) (hn : n = s.nextNonce)
    (m c b p a o t r tp oe e co ce : Int) :
    ((LighterSignCreateOrder env sessions sid m c b p a o t r tp oe n e).elems.bind
      (fun l => l[6]?) = some (env.fromUint32 (toUint32 (toInt16 m)))) ∧
    ((LighterSignCancelOrder env sessions sid m co n ce).elems.bind
      (fun l => l[6]?) = some (env.fromUint32 (toUint32 (toInt16 m)))) ∧
    (toUint32 (toInt16 m) % 65536 = (m % 65536).toNat) ∧
    (toUint32 (toInt16 m) / 65536 = if 32768 ≤ m % 65536 then 65535 else 0) ∧
    (0 ≤ m → m ≤ 32767 → (toUint32 (toInt16 m) : Int) = m) ∧
    (32768 ≤ m → m ≤ 65535 → (toUint32 (toInt16 m) : Int) = 4294967296 - 65536 + m) ∧
    toUint32 (toInt16 32768) = 4294934528 := by
  have h1 := createOrder_elems_of_guard env sessions sid s hi m c b p a o t r tp oe n e hn
  have h2 := cancelOrder_elems_of_guard env sessions sid s hi m co n ce hn
  refine ⟨by rw [h1]; rfl, by rw [h2]; rfl, ?_, ?_, ?_, ?_, by decide⟩
  · unfold toUint32 toInt16; omega
  · unfold toUint32 toInt16; split <;> omega
  · intro h0 hmax; unfold toUint32 toInt16; omega
  · intro h0 hmax; unfold toUint32 toInt16; omega

/-- Instance of C20: with market index 32768 element 6 of both sequences is
4294934528 and not 32768; with market index 3 it is 3. -/
theorem marketIndex_narrowing_witness :
    (LighterSignCreateOrder demoEnv [demoSession [171] 5] 0 32768 42 1000 500 1 0 0 0 0 0 5
      100).elems.bind (fun l => l[6]?) = some 4294934528 ∧
    (LighterSignCancelOrder demoEnv [demoSession [171] 5] 0 32768 9 5 100).elems.bind
      (fun l => l[6]?) = some 4294934528 ∧
    (4294934528 : Int) ≠ 32768 := by
  have h := marketIndex_narrowing demoEnv [demoSession [171] 5] 0 (demoSession [171] 5) rfl
    5 rfl 32768 42 1000 500 1 0 0 0 0 0 100 9 100
  refine ⟨?_, ?_, by decide⟩
  · rw [h.1]; decide
  · rw [h.2.1]; decide

end LighterGo
